import Mathlib

/-!
Verification development for the sora2 video client (`src/videos.js`).

The JavaScript source is shallowly embedded: pure functions become Lean
functions, JavaScript numbers used for aspect-ratio arithmetic are
idealized as exact rationals (`Rat`), byte buffers become `List Nat`,
fallible code returns `Except`, and external collaborators (the `sharp`
resizer, the `image-size` prober, the filesystem, `path.resolve`,
base64 decoding, JavaScript `String()` conversion of non-string values)
are passed in as explicit function parameters.
-/

set_option maxHeartbeats 1000000

/-- Byte buffers (Node `Buffer` / `Uint8Array`) are modelled as lists of bytes. -/
abbrev Buffer := List Nat

/-- One supported output resolution, from `MODEL_SIZE_RULES` in `videos.js`:
`{ label, width, height }`. -/
structure SizeRule where
  label : String
  width : Nat
  height : Nat
deriving DecidableEq, Repr

/-- The `sora-2` rule set from `MODEL_SIZE_RULES` (`videos.js` lines 37-40). -/
def sora2Rules : List SizeRule :=
  [⟨"1280x720", 1280, 720⟩, ⟨"720x1280", 720, 1280⟩]

/-- The `sora-2-pro` rule set from `MODEL_SIZE_RULES` (`videos.js` lines 41-46). -/
def sora2ProRules : List SizeRule :=
  [⟨"1280x720", 1280, 720⟩, ⟨"720x1280", 720, 1280⟩,
   ⟨"1024x1792", 1024, 1792⟩, ⟨"1792x1024", 1792, 1024⟩]

/-- The model-to-rule-set table `MODEL_SIZE_RULES`. -/
def MODEL_SIZE_RULES : List (String × List SizeRule) :=
  [("sora-2", sora2Rules), ("sora-2-pro", sora2ProRules)]

/-- `DEFAULT_SIZE_RULES = MODEL_SIZE_RULES['sora-2']` (`videos.js` line 48). -/
def DEFAULT_SIZE_RULES : List SizeRule := sora2Rules

/-- `getSizeRules(model)` (`videos.js` lines 50-52): table lookup with fallback
to the default rule set. -/
def getSizeRules (model : String) : List SizeRule :=
  match MODEL_SIZE_RULES.find? (fun p => p.1 = model) with
  | some p => p.2
  | none => DEFAULT_SIZE_RULES

/-- The input aspect `width / height` (`videos.js` line 284), as an exact rational. -/
def aspectOf (width height : Nat) : Rat := (width : Rat) / (height : Rat)

/-- The score of a candidate rule against a target aspect:
`Math.abs(size.width / size.height - ratio)` (`videos.js` lines 292-293). -/
def scoreOf (aspect : Rat) (s : SizeRule) : Rat :=
  |(s.width : Rat) / (s.height : Rat) - aspect|

/-- The orientation filter (`videos.js` line 285): rules whose own orientation
`size.width >= size.height` equals the input's orientation `width >= height`. -/
def orientationCandidates (width height : Nat) (sizeRules : List SizeRule) : List SizeRule :=
  sizeRules.filter (fun s => decide (s.height ≤ s.width) == decide (height ≤ width))

/-- The candidate pool (`videos.js` line 286): the orientation-filtered rules,
or the whole rule set when the filter admits none. -/
def orientationPool (width height : Nat) (sizeRules : List SizeRule) : List SizeRule :=
  if (orientationCandidates width height sizeRules).isEmpty then sizeRules
  else orientationCandidates width height sizeRules

/-- The selection loop of `chooseSupportedVideoSize` (`videos.js` lines 288-298):
walk the pool keeping the current best rule; a later rule displaces it only
with a strictly smaller score.  `none` as the running best score models the
initial `Number.POSITIVE_INFINITY`, which every (finite) score beats. -/
def selectLoop (aspect : Rat) : List SizeRule → SizeRule → Option Rat → SizeRule
  | [], best, _ => best
  | s :: rest, _, none => selectLoop aspect rest s (some (scoreOf aspect s))
  | s :: rest, best, some b =>
      if scoreOf aspect s < b then selectLoop aspect rest s (some (scoreOf aspect s))
      else selectLoop aspect rest best (some b)

/-- `chooseSupportedVideoSize(width, height, sizeRules)` (`videos.js` lines 278-301):
returns `none` when a dimension is zero (falsy) or the rule set is empty,
otherwise runs the selection loop over the orientation pool starting from its
first element. -/
def chooseSupportedVideoSize (width height : Nat) (sizeRules : List SizeRule) :
    Option SizeRule :=
  if width = 0 ∨ height = 0 ∨ sizeRules.isEmpty then none
  else
    match orientationPool width height sizeRules with
    | [] => none
    | p :: rest => some (selectLoop (aspectOf width height) (p :: rest) p none)

/-! ### Helper lemmas about the selection loop -/

/-- The selection loop returns either the incoming best rule or an element of
the remaining list. -/
theorem selectLoop_mem (aspect : Rat) :
    ∀ (l : List SizeRule) (best : SizeRule) (b : Option Rat),
      selectLoop aspect l best b = best ∨ selectLoop aspect l best b ∈ l := by
  intro l
  induction l with
  | nil => intro best b; left; cases b <;> rfl
  | cons s rest ih =>
    intro best b
    cases b with
    | none =>
      rcases ih s (some (scoreOf aspect s)) with h | h
      · right; rw [selectLoop, h]; exact List.mem_cons_self _ _
      · right; rw [selectLoop]; exact List.mem_cons_of_mem _ h
    | some bs =>
      rw [selectLoop]
      by_cases hlt : scoreOf aspect s < bs
      · rw [if_pos hlt]
        rcases ih s (some (scoreOf aspect s)) with h | h
        · right; rw [h]; exact List.mem_cons_self _ _
        · right; exact List.mem_cons_of_mem _ h
      · rw [if_neg hlt]
        rcases ih best (some bs) with h | h
        · left; exact h
        · right; exact List.mem_cons_of_mem _ h

/-- Main invariant of the selection loop, starting from a finite best score:
either no element of the list strictly beats the incoming score and the
incoming best survives, or the result is the first element of the list
attaining the minimum score, which strictly beats the incoming score. -/
theorem selectLoop_invariant (aspect : Rat) :
    ∀ (l : List SizeRule) (best : SizeRule) (b : Rat),
      (selectLoop aspect l best (some b) = best ∧ ∀ s ∈ l, b ≤ scoreOf aspect s)
      ∨ (∃ l₁ l₂, l = l₁ ++ selectLoop aspect l best (some b) :: l₂
          ∧ scoreOf aspect (selectLoop aspect l best (some b)) < b
          ∧ (∀ s ∈ l₁, scoreOf aspect (selectLoop aspect l best (some b)) < scoreOf aspect s)
          ∧ ∀ s ∈ l, scoreOf aspect (selectLoop aspect l best (some b)) ≤ scoreOf aspect s) := by
  intro l
  induction l with
  | nil =>
    intro best b
    left
    exact ⟨rfl, by intro s hs; cases hs⟩
  | cons s rest ih =>
    intro best b
    by_cases hlt : scoreOf aspect s < b
    · have hsel : selectLoop aspect (s :: rest) best (some b)
        = selectLoop aspect rest s (some (scoreOf aspect s)) := by
        rw [selectLoop, if_pos hlt]
      rcases ih s (scoreOf aspect s) with ⟨heq, hall⟩ | ⟨l₁, l₂, hsplit, hlt', hstrict, hle⟩
      · right
        refine ⟨[], rest, ?_, ?_, ?_, ?_⟩
        · rw [hsel, heq]; rfl
        · rw [hsel, heq]; exact hlt
        · intro t ht; cases ht
        · intro t ht
          rw [hsel, heq]
          rcases List.mem_cons.mp ht with h | h
          · subst h; exact le_refl _
          · exact hall t h
      · right
        refine ⟨s :: l₁, l₂, ?_, ?_, ?_, ?_⟩
        · rw [hsel, List.cons_append, ← hsplit]
        · rw [hsel]; exact lt_trans hlt' hlt
        · intro t ht
          rw [hsel]
          rcases List.mem_cons.mp ht with h | h
          · subst h; exact hlt'
          · exact hstrict t h
        · intro t ht
          rw [hsel]
          rcases List.mem_cons.mp ht with h | h
          · subst h; exact le_of_lt hlt'
          · exact hle t h
    · have hsel : selectLoop aspect (s :: rest) best (some b)
        = selectLoop aspect rest best (some b) := by
        rw [selectLoop, if_neg hlt]
      rcases ih best b with ⟨heq, hall⟩ | ⟨l₁, l₂, hsplit, hlt', hstrict, hle⟩
      · left
        constructor
        · rw [hsel, heq]
        · intro t ht
          rcases List.mem_cons.mp ht with h | h
          · subst h; exact le_of_not_lt hlt
          · exact hall t h
      · right
        refine ⟨s :: l₁, l₂, ?_, ?_, ?_, ?_⟩
        · rw [hsel, List.cons_append, ← hsplit]
        · rw [hsel]; exact hlt'
        · intro t ht
          rw [hsel]
          rcases List.mem_cons.mp ht with h | h
          · subst h
            exact lt_of_lt_of_le hlt' (le_of_not_lt hlt)
          · exact hstrict t h
        · intro t ht
          rw [hsel]
          rcases List.mem_cons.mp ht with h | h
          · subst h
            exact le_trans (le_of_lt hlt') (le_of_not_lt hlt)
          · exact hle t h

/-- Every element of the orientation pool comes from the rule set. -/
theorem orientationPool_subset (width height : Nat) (sizeRules : List SizeRule) :
    ∀ s ∈ orientationPool width height sizeRules, s ∈ sizeRules := by
  intro s hs
  unfold orientationPool at hs
  by_cases h : (orientationCandidates width height sizeRules).isEmpty
  · rw [if_pos h] at hs; exact hs
  · rw [if_neg h] at hs
    exact List.mem_of_mem_filter hs

/-- The orientation pool of a non-empty rule set is non-empty. -/
theorem orientationPool_ne_nil (width height : Nat) (sizeRules : List SizeRule)
    (h : sizeRules ≠ []) : orientationPool width height sizeRules ≠ [] := by
  unfold orientationPool
  by_cases hc : (orientationCandidates width height sizeRules).isEmpty
  · rw [if_pos hc]; exact h
  · rw [if_neg hc]
    intro hnil
    rw [hnil] at hc
    exact hc rfl

/-- If `chooseSupportedVideoSize` returns a rule, that rule belongs to the rule set. -/
theorem chooseSupportedVideoSize_mem {width height : Nat} {sizeRules : List SizeRule}
    {r : SizeRule} (h : chooseSupportedVideoSize width height sizeRules = some r) :
    r ∈ sizeRules := by
  unfold chooseSupportedVideoSize at h
  by_cases hcond : width = 0 ∨ height = 0 ∨ sizeRules.isEmpty
  · rw [if_pos hcond] at h; cases h
  · rw [if_neg hcond] at h
    rcases hpool : orientationPool width height sizeRules with _ | ⟨p, rest⟩
    · rw [hpool] at h; cases h
    · rw [hpool] at h
      have hr : r = selectLoop (aspectOf width height) (p :: rest) p none :=
        (Option.some_injective _ h).symm
      have hmem : r = p ∨ r ∈ p :: rest := by
        rw [hr]
        rcases selectLoop_mem (aspectOf width height) (p :: rest) p none with h' | h'
        · left; exact h'
        · right; exact h'
      apply orientationPool_subset width height sizeRules
      rw [hpool]
      rcases hmem with h' | h'
      · rw [h']; exact List.mem_cons_self _ _
      · exact h'

/-! ### Claim C1 -/

/-- C1: for every positive width and height and every non-empty rule set (of
rules with positive dimensions), `chooseSupportedVideoSize` returns a member
of the rule set, and that member is the earliest rule in iteration order of
the orientation pool (the orientation-matching rules, or the whole rule set
when none match) that minimizes the absolute difference between the rule's
aspect ratio and the input's aspect ratio: every earlier pool element scores
strictly worse, every pool element scores no better. -/
theorem chooseSupportedVideoSize_returns_firstMin_member
    (width height : Nat) (sizeRules : List SizeRule)
    (hw : 0 < width) (hh : 0 < height) (hne : sizeRules ≠ [])
    (hpos : ∀ r ∈ sizeRules, 0 < r.width ∧ 0 < r.height) :
    ∃ r, chooseSupportedVideoSize width height sizeRules = some r
      ∧ r ∈ sizeRules
      ∧ ∃ l₁ l₂, orientationPool width height sizeRules = l₁ ++ r :: l₂
          ∧ (∀ s ∈ l₁, scoreOf (aspectOf width height) r < scoreOf (aspectOf width height) s)
          ∧ ∀ s ∈ orientationPool width height sizeRules,
              scoreOf (aspectOf width height) r ≤ scoreOf (aspectOf width height) s := by
  have hcond : ¬ (width = 0 ∨ height = 0 ∨ sizeRules.isEmpty) := by
    push_neg
    refine ⟨Nat.pos_iff_ne_zero.mp hw, Nat.pos_iff_ne_zero.mp hh, ?_⟩
    simp [List.isEmpty_iff, hne]
  rcases hpool : orientationPool width height sizeRules with _ | ⟨p, rest⟩
  · exact absurd hpool (orientationPool_ne_nil width height sizeRules hne)
  · have hchoose : chooseSupportedVideoSize width height sizeRules
        = some (selectLoop (aspectOf width height) (p :: rest) p none) := by
      unfold chooseSupportedVideoSize
      rw [if_neg hcond, hpool]
    have hstep : selectLoop (aspectOf width height) (p :: rest) p none
        = selectLoop (aspectOf width height) rest p
            (some (scoreOf (aspectOf width height) p)) := rfl
    refine ⟨selectLoop (aspectOf width height) (p :: rest) p none, hchoose, ?_, ?_⟩
    · exact chooseSupportedVideoSize_mem hchoose
    · rcases selectLoop_invariant (aspectOf width height) rest p
        (scoreOf (aspectOf width height) p) with
        ⟨heq, hall⟩ | ⟨l₁, l₂, hsplit, hlt', hstrict, hle⟩
      · refine ⟨[], rest, ?_, ?_, ?_⟩
        · rw [hstep, heq]; rfl
        · intro t ht; cases ht
        · rw [hstep, heq]
          intro t ht
          rcases List.mem_cons.mp ht with h | h
          · subst h; exact le_refl _
          · exact hall t h
      · refine ⟨p :: l₁, l₂, ?_, ?_, ?_⟩
        · rw [hstep, List.cons_append, ← hsplit]
        · rw [hstep]
          intro t ht
          rcases List.mem_cons.mp ht with h | h
          · subst h; exact hlt'
          · exact hstrict t h
        · rw [hstep]
          intro t ht
          rcases List.mem_cons.mp ht with h | h
          · subst h; exact le_of_lt hlt'
          · exact hle t h

/-- Witness for C1 at width 1280, height 720 over the `sora-2` rule set. -/
theorem chooseSupportedVideoSize_returns_firstMin_member_witness :
    ∃ r, chooseSupportedVideoSize 1280 720 sora2Rules = some r
      ∧ r ∈ sora2Rules
      ∧ ∃ l₁ l₂, orientationPool 1280 720 sora2Rules = l₁ ++ r :: l₂
          ∧ (∀ s ∈ l₁, scoreOf (aspectOf 1280 720) r < scoreOf (aspectOf 1280 720) s)
          ∧ ∀ s ∈ orientationPool 1280 720 sora2Rules,
              scoreOf (aspectOf 1280 720) r ≤ scoreOf (aspectOf 1280 720) s :=
  chooseSupportedVideoSize_returns_firstMin_member 1280 720 sora2Rules
    (by decide) (by decide) (by decide) (by decide)

/-! ### Claim C8 -/

/-- C8: on the square input 1000x1000 with the `sora-2` rule set, the
orientation filter (width >= height holds at parity) admits exactly the
landscape rule `1280x720`, and `chooseSupportedVideoSize` returns it. -/
theorem chooseSupportedVideoSize_square_input :
    chooseSupportedVideoSize 1000 1000 sora2Rules = some ⟨"1280x720", 1280, 720⟩
    ∧ orientationCandidates 1000 1000 sora2Rules = [⟨"1280x720", 1280, 720⟩] := by
  decide

/-! ### Size-string normalization and coercion (`videos.js` lines 303-335) -/

/-- Characters kept by the `[^0-9x]` strip in `normalizeSizeLabel`. -/
def isSizeChar (c : Char) : Bool := c.isDigit || c == 'x'

/-- Drop a leading run of `x` characters. -/
def dropLeadingXs : List Char → List Char
  | [] => []
  | c :: rest => if c == 'x' then dropLeadingXs rest else c :: rest

/-- Collapse the first run of `x` characters to a single `x`, leaving the rest
of the string untouched: the JavaScript `.replace(/x+/, 'x')` has no `g` flag,
so only the first match is replaced. -/
def collapseFirstXRun : List Char → List Char
  | [] => []
  | c :: rest => if c == 'x' then 'x' :: dropLeadingXs rest else c :: collapseFirstXRun rest

/-- `normalizeSizeLabel(value)` (`videos.js` lines 329-335): lowercase, strip
whitespace, strip characters outside `[0-9x]`, collapse the first run of `x`
separators.  The whitespace strip is subsumed by the `[0-9x]` filter (no
whitespace character is a digit or `x`), so the composite is faithful to the
source for every input. -/
def normalizeSizeLabel (value : String) : String :=
  String.mk (collapseFirstXRun
    (((value.data.map Char.toLower).filter (fun c => !c.isWhitespace)).filter isSizeChar))

/-- Digit-string to number, as JavaScript `Number` on an all-digit string
(idealized as an exact natural; no float rounding or overflow to infinity). -/
def natOfDigits (cs : List Char) : Nat :=
  cs.foldl (fun n c => n * 10 + (c.toNat - 48)) 0

/-- Match against `/^(\d+)x(\d+)$/` (`videos.js` line 314): digits, one `x`,
digits, nothing else. -/
def parseWxH (s : String) : Option (Nat × Nat) :=
  match s.data.dropWhile Char.isDigit with
  | 'x' :: hs =>
    if s.data.takeWhile Char.isDigit ≠ [] ∧ hs ≠ [] ∧ hs.all Char.isDigit then
      some (natOfDigits (s.data.takeWhile Char.isDigit), natOfDigits hs)
    else none
  | _ => none

/-- Read the chosen candidate's label, falling back to `sizeRules[0]?.label`
(`videos.js` lines 319-323 and 326). -/
def labelOfChoice (sizeRules : List SizeRule) : Option SizeRule → String
  | some candidate => candidate.label
  | none => ((sizeRules.head?).map SizeRule.label).getD ""

/-- The parse branch of `coerceSizeToSupported` (`videos.js` lines 314-326):
on a `WxH` parse with both components positive, delegate to
`chooseSupportedVideoSize`; otherwise the first rule's label.  The source's
`Number.isFinite` checks are always true in the exact-arithmetic model. -/
def coerceParsed (sizeRules : List SizeRule) : Option (Nat × Nat) → String
  | some (w, h) =>
      if 0 < w ∧ 0 < h then
        labelOfChoice sizeRules (chooseSupportedVideoSize w h sizeRules)
      else ((sizeRules.head?).map SizeRule.label).getD ""
  | none => ((sizeRules.head?).map SizeRule.label).getD ""

/-- Body of `coerceSizeToSupported` after its truthiness guard (`videos.js`
lines 308-326): exact label match first, then the parse branch. -/
def coerceCore (size : String) (sizeRules : List SizeRule) : String :=
  match sizeRules.find? (fun rule => rule.label == normalizeSizeLabel size) with
  | some rule => rule.label
  | none => coerceParsed sizeRules (parseWxH (normalizeSizeLabel size))

/-- `coerceSizeToSupported(size, sizeRules)` (`videos.js` lines 303-327).  The
guard `!sizeRules || !sizeRules.length || !size` returns the input unchanged
when the rule set is empty or the size string is empty (falsy). -/
def coerceSizeToSupported (size : String) (sizeRules : List SizeRule) : String :=
  if sizeRules.isEmpty ∨ size = "" then size else coerceCore size sizeRules

/-! ### Helper lemmas about coercion -/

/-- With positive dimensions and a non-empty rule set the resolver always
produces a rule. -/
theorem chooseSupportedVideoSize_isSome {width height : Nat} {sizeRules : List SizeRule}
    (hw : 0 < width) (hh : 0 < height) (hne : sizeRules ≠ []) :
    ∃ c, chooseSupportedVideoSize width height sizeRules = some c := by
  have hcond : ¬ (width = 0 ∨ height = 0 ∨ sizeRules.isEmpty) := by
    push_neg
    refine ⟨Nat.pos_iff_ne_zero.mp hw, Nat.pos_iff_ne_zero.mp hh, ?_⟩
    simp [List.isEmpty_iff, hne]
  rcases hpool : orientationPool width height sizeRules with _ | ⟨p, rest⟩
  · exact absurd hpool (orientationPool_ne_nil width height sizeRules hne)
  · refine ⟨selectLoop (aspectOf width height) (p :: rest) p none, ?_⟩
    unfold chooseSupportedVideoSize
    rw [if_neg hcond, hpool]

/-- The first rule's label, as read by `sizeRules[0]?.label`, is a label of the
rule set whenever the rule set is non-empty. -/
theorem headLabel_mem {sizeRules : List SizeRule} (h : sizeRules ≠ []) :
    ((sizeRules.head?).map SizeRule.label).getD "" ∈ sizeRules.map SizeRule.label := by
  cases sizeRules with
  | nil => exact absurd rfl h
  | cons r rest => simp

/-- On a non-empty size string and a non-empty rule set, the guard of
`coerceSizeToSupported` falls through to the core. -/
theorem coerce_eq_core {size : String} {sizeRules : List SizeRule}
    (hs : size ≠ "") (hne : sizeRules ≠ []) :
    coerceSizeToSupported size sizeRules = coerceCore size sizeRules := by
  unfold coerceSizeToSupported
  rw [if_neg]
  push_neg
  exact ⟨by simp [List.isEmpty_iff, hne], hs⟩

/-- Reduction of `coerceCore` on a successful exact label match. -/
theorem coerceCore_eq_label {size : String} {sizeRules : List SizeRule} {rule : SizeRule}
    (hfind : sizeRules.find? (fun r => r.label == normalizeSizeLabel size) = some rule) :
    coerceCore size sizeRules = rule.label := by
  unfold coerceCore
  rw [hfind]

/-- Reduction of `coerceCore` when no label matches exactly. -/
theorem coerceCore_eq_parsed {size : String} {sizeRules : List SizeRule}
    (hfind : sizeRules.find? (fun r => r.label == normalizeSizeLabel size) = none) :
    coerceCore size sizeRules = coerceParsed sizeRules (parseWxH (normalizeSizeLabel size)) := by
  unfold coerceCore
  rw [hfind]

/-- The fallback label reader only produces labels of the (non-empty) rule set. -/
theorem labelOfChoice_mem {sizeRules : List SizeRule} (hne : sizeRules ≠ [])
    (o : Option SizeRule) (ho : ∀ c, o = some c → c ∈ sizeRules) :
    labelOfChoice sizeRules o ∈ sizeRules.map SizeRule.label := by
  match o with
  | none => exact headLabel_mem hne
  | some c => exact List.mem_map_of_mem SizeRule.label (ho c rfl)

/-- The parse branch only produces labels of the (non-empty) rule set. -/
theorem coerceParsed_mem {sizeRules : List SizeRule} (hne : sizeRules ≠ [])
    (p : Option (Nat × Nat)) :
    coerceParsed sizeRules p ∈ sizeRules.map SizeRule.label := by
  match p with
  | none => exact headLabel_mem hne
  | some (w, h) =>
    show (if 0 < w ∧ 0 < h then
            labelOfChoice sizeRules (chooseSupportedVideoSize w h sizeRules)
          else ((sizeRules.head?).map SizeRule.label).getD "")
        ∈ sizeRules.map SizeRule.label
    by_cases hwh : 0 < w ∧ 0 < h
    · rw [if_pos hwh]
      exact labelOfChoice_mem hne _ (fun c hc => chooseSupportedVideoSize_mem hc)
    · rw [if_neg hwh]
      exact headLabel_mem hne

/-- The coercion always returns a label of the rule set (non-empty input,
non-empty rules). -/
theorem coerceSizeToSupported_mem {size : String} {sizeRules : List SizeRule}
    (hs : size ≠ "") (hne : sizeRules ≠ []) :
    coerceSizeToSupported size sizeRules ∈ sizeRules.map SizeRule.label := by
  rw [coerce_eq_core hs hne]
  rcases hfind : sizeRules.find? (fun r => r.label == normalizeSizeLabel size)
    with _ | rule
  · rw [coerceCore_eq_parsed hfind]
    exact coerceParsed_mem hne _
  · rw [coerceCore_eq_label hfind]
    exact List.mem_map_of_mem SizeRule.label (List.mem_of_find?_eq_some hfind)

/-! ### Claim C2 (corrected) -/

/-- C2 counterexample: on the empty input string the guard
`!sizeRules || !sizeRules.length || !size` returns the input unchanged, so
`coerceSizeToSupported` returns `""`, which is not a label of the (non-empty)
`sora-2` rule set — contradicting the claim that every input string yields a
label belonging to the rule set (the default first label for unparseable
input). -/
theorem coerceSizeToSupported_empty_string_cex :
    coerceSizeToSupported "" sora2Rules = ""
    ∧ "" ∉ sora2Rules.map SizeRule.label := by
  constructor
  · rfl
  · decide

/-- C2 (amended to non-empty input strings): `coerceSizeToSupported` never
throws (it is total) and on any non-empty input string and non-empty rule set
returns a label belonging to the rule set; an exact match of the normalized
input (lowercased, whitespace and non-`[0-9x]` characters stripped, first run
of `x` separators collapsed) against a rule label wins and returns that exact
label; otherwise a normalized string parsing as `WxH` with both components
positive returns the resolver's label; otherwise the first rule's label is
returned; and `"1280 X 720"` normalizes to `"1280x720"`. -/
theorem coerceSizeToSupported_spec (size : String) (sizeRules : List SizeRule)
    (hs : size ≠ "") (hne : sizeRules ≠ []) :
    coerceSizeToSupported size sizeRules ∈ sizeRules.map SizeRule.label
    ∧ (∀ rule, sizeRules.find? (fun r => r.label == normalizeSizeLabel size) = some rule →
        coerceSizeToSupported size sizeRules = normalizeSizeLabel size)
    ∧ (sizeRules.find? (fun r => r.label == normalizeSizeLabel size) = none →
        ∀ w h, parseWxH (normalizeSizeLabel size) = some (w, h) → 0 < w → 0 < h →
          ∃ c, chooseSupportedVideoSize w h sizeRules = some c
            ∧ coerceSizeToSupported size sizeRules = c.label)
    ∧ (sizeRules.find? (fun r => r.label == normalizeSizeLabel size) = none →
        (parseWxH (normalizeSizeLabel size) = none
          ∨ ∃ w h, parseWxH (normalizeSizeLabel size) = some (w, h) ∧ (w = 0 ∨ h = 0)) →
        ∃ r₀ rest, sizeRules = r₀ :: rest
          ∧ coerceSizeToSupported size sizeRules = r₀.label)
    ∧ normalizeSizeLabel "1280 X 720" = "1280x720" := by
  refine ⟨coerceSizeToSupported_mem hs hne, ?_, ?_, ?_, by decide⟩
  · intro rule hfind
    rw [coerce_eq_core hs hne, coerceCore_eq_label hfind]
    have hb := List.find?_some hfind
    exact eq_of_beq hb
  · intro hfind w h hparse hw hh
    obtain ⟨c, hc⟩ := chooseSupportedVideoSize_isSome hw hh hne
    refine ⟨c, hc, ?_⟩
    rw [coerce_eq_core hs hne, coerceCore_eq_parsed hfind, hparse]
    show (if 0 < w ∧ 0 < h then
            labelOfChoice sizeRules (chooseSupportedVideoSize w h sizeRules)
          else ((sizeRules.head?).map SizeRule.label).getD "") = c.label
    have hwh : 0 < w ∧ 0 < h := ⟨hw, hh⟩
    rw [if_pos hwh, hc]
    rfl
  · intro hfind hbad
    cases sizeRules with
    | nil => exact absurd rfl hne
    | cons r₀ rest =>
      refine ⟨r₀, rest, rfl, ?_⟩
      rw [coerce_eq_core hs hne, coerceCore_eq_parsed hfind]
      rcases hbad with hnone | ⟨w, h, hparse, hzero⟩
      · rw [hnone]
        rfl
      · rw [hparse]
        show (if 0 < w ∧ 0 < h then
                labelOfChoice (r₀ :: rest) (chooseSupportedVideoSize w h (r₀ :: rest))
              else (((r₀ :: rest).head?).map SizeRule.label).getD "") = r₀.label
        have hnc : ¬ (0 < w ∧ 0 < h) := by
          rcases hzero with h0 | h0
          · intro hcontra; rw [h0] at hcontra; exact absurd hcontra.1 (lt_irrefl 0)
          · intro hcontra; rw [h0] at hcontra; exact absurd hcontra.2 (lt_irrefl 0)
        rw [if_neg hnc]
        rfl

/-- Witness for C2's amended theorem at the unparseable input `"garbage"` on
the `sora-2` rule set. -/
theorem coerceSizeToSupported_spec_witness :
    coerceSizeToSupported "garbage" sora2Rules ∈ sora2Rules.map SizeRule.label :=
  (coerceSizeToSupported_spec "garbage" sora2Rules (by decide) (by decide)).1

/-! ### MIME type resolution (`videos.js` lines 53-58, 337-389) -/

/-- The fixed supported set `SUPPORTED_INPUT_REFERENCE_MIME_TYPES`
(`videos.js` lines 53-58), in the `Set`'s insertion order. -/
def SUPPORTED_INPUT_REFERENCE_MIME_TYPES : List String :=
  ["image/jpeg", "image/png", "image/webp", "video/mp4"]

/-- Lowercasing as JavaScript `toLowerCase`, over the character list (the
characters relevant to MIME types, labels and extensions are ASCII). -/
def strToLower (s : String) : String := String.mk (s.data.map Char.toLower)

/-- Trimming as JavaScript `trim`: strip leading and trailing whitespace. -/
def strTrim (s : String) : String :=
  String.mk (((s.data.dropWhile Char.isWhitespace).reverse.dropWhile
    Char.isWhitespace).reverse)

/-- Last path component (POSIX `path.basename` as used on resolved absolute
paths and plain filenames): the characters after the last `/`. -/
def pathBasename (p : String) : String :=
  String.mk ((p.data.reverse.takeWhile (fun c => c != '/')).reverse)

/-- Core of `path.extname` over the component's characters: from the last `.`
to the end, empty when there is no dot or the dot is the leading character of
the component (dotfile). -/
def pathExtnameCore (b : List Char) : List Char :=
  if (b.reverse.takeWhile (fun c => c ≠ '.')).length = b.length then []
  else if (b.reverse.takeWhile (fun c => c ≠ '.')).length + 1 = b.length then []
  else '.' :: (b.reverse.takeWhile (fun c => c ≠ '.')).reverse

/-- Extension of the last path component (`path.extname`). -/
def pathExtname (p : String) : String :=
  String.mk (pathExtnameCore (pathBasename p).data)

/-- The extension table of `inferMimeType` (`videos.js` lines 362-375), on the
lowercased extension. -/
def extensionMime (ext : String) : Option String :=
  if ext = ".jpg" ∨ ext = ".jpeg" then some "image/jpeg"
  else if ext = ".png" then some "image/png"
  else if ext = ".webp" then some "image/webp"
  else if ext = ".mp4" then some "video/mp4"
  else none

/-- The declared-type branch of `inferMimeType` (`videos.js` lines 355-360):
a declared type that is truthy, non-blank after trimming, and (lowercased)
already a supported value is accepted as that normalized value. -/
def declaredMimeNorm (fallbackMimeType : Option String) : Option String :=
  match fallbackMimeType with
  | some fb =>
    if strTrim fb ≠ "" ∧ strToLower (strTrim fb) ∈ SUPPORTED_INPUT_REFERENCE_MIME_TYPES then
      some (strToLower (strTrim fb))
    else none
  | none => none

/-- `inferMimeType(filename, fallbackMimeType)` (`videos.js` lines 354-376):
declared type when itself supported, else the extension table, else the
declared type as given (`fallbackMimeType || undefined` maps the falsy empty
string to `undefined`). -/
def inferMimeType (filename fallbackMimeType : Option String) : Option String :=
  match declaredMimeNorm fallbackMimeType with
  | some m => some m
  | none =>
    match extensionMime (strToLower (pathExtname (filename.getD ""))) with
    | some m => some m
    | none =>
      match fallbackMimeType with
      | some fb => if fb ≠ "" then some fb else none
      | none => none

/-- The error message of `ensureSupportedMimeType` (`videos.js` lines 381-386):
names the rejected filename when truthy and enumerates the supported set in
insertion order. -/
def unsupportedMessage (filename : Option String) : String :=
  "Unsupported input_reference file type" ++
    (match filename with
     | some f => if f ≠ "" then " for \"" ++ f ++ "\"" else ""
     | none => "") ++
    ". Supported types: " ++
    String.intercalate ", " SUPPORTED_INPUT_REFERENCE_MIME_TYPES ++ "."

/-- `ensureSupportedMimeType(mimeType, filename)` (`videos.js` lines 378-389):
trim and lowercase the (possibly absent) resolved type, throw the
unsupported-media error unless it is in the supported set. -/
def ensureSupportedMimeType (mimeType : Option String) (filename : Option String) :
    Except String String :=
  if strToLower (strTrim (mimeType.getD "")) ∈ SUPPORTED_INPUT_REFERENCE_MIME_TYPES then
    .ok (strToLower (strTrim (mimeType.getD "")))
  else .error (unsupportedMessage filename)

/-! ### Claim C4 -/

/-- C4: MIME resolution takes (a) the declared type when its trimmed,
lowercased form is itself supported; else (b) the fixed extension table on the
filename's extension; else (c) the declared type as given.  Validation fails
with the unsupported-media error exactly when the (normalized) resolved type
is not in the supported set; the message names the rejected filename when
known and enumerates the supported set; MIME `image/gif` is rejected this
way. -/
theorem mimeResolution_spec (filename declared : Option String) :
    (∀ d, declared = some d →
      strToLower (strTrim d) ∈ SUPPORTED_INPUT_REFERENCE_MIME_TYPES →
      inferMimeType filename declared = some (strToLower (strTrim d)))
    ∧ (declaredMimeNorm declared = none →
       ∀ m, extensionMime (strToLower (pathExtname (filename.getD ""))) = some m →
        inferMimeType filename declared = some m)
    ∧ (declaredMimeNorm declared = none →
       extensionMime (strToLower (pathExtname (filename.getD ""))) = none →
       ∀ d, declared = some d → d ≠ "" → inferMimeType filename declared = some d)
    ∧ (∀ m, ensureSupportedMimeType m filename = .error (unsupportedMessage filename)
        ↔ strToLower (strTrim (m.getD "")) ∉ SUPPORTED_INPUT_REFERENCE_MIME_TYPES)
    ∧ (∀ f, filename = some f → f ≠ "" →
        unsupportedMessage (some f) =
          "Unsupported input_reference file type" ++ (" for \"" ++ f ++ "\"") ++
          ". Supported types: " ++ "image/jpeg, image/png, image/webp, video/mp4" ++ ".")
    ∧ ensureSupportedMimeType (inferMimeType (some "anim.gif") (some "image/gif"))
        (some "anim.gif") = .error (unsupportedMessage (some "anim.gif")) := by
  refine ⟨?_, ?_, ?_, ?_, ?_, by rfl⟩
  · intro d hd hmem
    have htrim : strTrim d ≠ "" := by
      intro h0
      rw [h0] at hmem
      exact absurd hmem (by decide)
    have hnorm : declaredMimeNorm declared = some (strToLower (strTrim d)) := by
      rw [hd]
      show (if strTrim d ≠ "" ∧ strToLower (strTrim d) ∈ SUPPORTED_INPUT_REFERENCE_MIME_TYPES
            then some (strToLower (strTrim d)) else none) = some (strToLower (strTrim d))
      have hc : strTrim d ≠ "" ∧ strToLower (strTrim d) ∈ SUPPORTED_INPUT_REFERENCE_MIME_TYPES :=
        ⟨htrim, hmem⟩
      rw [if_pos hc]
    unfold inferMimeType
    rw [hnorm]
  · intro hnorm m hext
    unfold inferMimeType
    rw [hnorm, hext]
  · intro hnorm hext d hd hd0
    unfold inferMimeType
    rw [hnorm, hext, hd]
    show (if d ≠ "" then some d else none) = some d
    rw [if_pos hd0]
  · intro m
    constructor
    · intro herr hmem
      unfold ensureSupportedMimeType at herr
      rw [if_pos hmem] at herr
      cases herr
    · intro hmem
      unfold ensureSupportedMimeType
      rw [if_neg hmem]
  · intro f hf hf0
    unfold unsupportedMessage
    show "Unsupported input_reference file type" ++
        (if f ≠ "" then " for \"" ++ f ++ "\"" else "") ++
        ". Supported types: " ++
        String.intercalate ", " SUPPORTED_INPUT_REFERENCE_MIME_TYPES ++ "." = _
    rw [if_pos hf0]
    have hI : String.intercalate ", " SUPPORTED_INPUT_REFERENCE_MIME_TYPES
        = "image/jpeg, image/png, image/webp, video/mp4" := rfl
    rw [hI]

/-- Witness for C4 at the rejected `image/gif` declared type with a known
filename. -/
theorem mimeResolution_spec_witness :
    ensureSupportedMimeType (inferMimeType (some "anim.gif") (some "image/gif"))
        (some "anim.gif") = .error (unsupportedMessage (some "anim.gif")) :=
  (mimeResolution_spec (some "anim.gif") (some "image/gif")).2.2.2.2.2

/-! ### Reference builder (`videos.js` lines 210-276, 337-352) -/

/-- `isImageMimeType(mimeType)` (`videos.js` lines 350-352): string starts
with `image/`. -/
def isImageMimeType (mimeType : String) : Bool :=
  mimeType.data.take 6 == "image/".data

/-- `mimeTypeToSharpFormat(mimeType)` (`videos.js` lines 337-348). -/
def mimeTypeToSharpFormat (mimeType : String) : Option String :=
  if mimeType = "image/jpeg" then some "jpeg"
  else if mimeType = "image/png" then some "png"
  else if mimeType = "image/webp" then some "webp"
  else none

/-- `getImageDimensions(buffer)` (`videos.js` lines 266-276): the external
`image-size` probe is a parameter; `none` models a throw or missing fields,
and the wrapper keeps a result only when both `width` and `height` are
truthy (non-zero). -/
def getImageDimensions (probe : Buffer → Option (Nat × Nat)) (buffer : Buffer) :
    Option (Nat × Nat) :=
  match probe buffer with
  | some (w, h) => if w ≠ 0 ∧ h ≠ 0 then some (w, h) else none
  | none => none

/-- Result of `alignBufferToSupportedSize`: the (possibly resized) bytes and
the optional size label. -/
structure AlignResult where
  buffer : Buffer
  sizeLabel : Option String
deriving DecidableEq, Repr

/-- The resize step of `alignBufferToSupportedSize` (`videos.js` lines
253-263), after a target rule was chosen: original bytes when the target
dimensions already equal the probed ones, else the `sharp` crop-to-fill
resize (a parameter) re-encoded to the format of the resolved MIME type. -/
def alignWithTarget (resizeFn : Buffer → Nat → Nat → Option String → Buffer)
    (buffer : Buffer) (mimeType : String) (w h : Nat) : Option SizeRule → AlignResult
  | some target =>
      if target.width = w ∧ target.height = h then ⟨buffer, some target.label⟩
      else ⟨resizeFn buffer target.width target.height (mimeTypeToSharpFormat mimeType),
            some target.label⟩
  | none => ⟨buffer, none⟩

/-- `alignBufferToSupportedSize(buffer, mimeType, sizeRules)` (`videos.js`
lines 238-264). -/
def alignBufferToSupportedSize (probe : Buffer → Option (Nat × Nat))
    (resizeFn : Buffer → Nat → Nat → Option String → Buffer)
    (buffer : Buffer) (mimeType : String) (sizeRules : List SizeRule) : AlignResult :=
  if ¬ isImageMimeType mimeType ∨ sizeRules.isEmpty then ⟨buffer, none⟩
  else
    match getImageDimensions probe buffer with
    | none => ⟨buffer, none⟩
    | some (w, h) =>
        alignWithTarget resizeFn buffer mimeType w h
          (chooseSupportedVideoSize w h sizeRules)

/-- The reference object built by `buildInputReference` (`videos.js` lines
230-236): the uploadable file (modelled by its bytes; `OpenAI.toFile` wraps
them with the filename), the resolved MIME type, and the optional size
label. -/
structure ReferenceMeta where
  file : Buffer
  mimeType : String
  sizeLabel : Option String
deriving DecidableEq, Repr

/-- `buildInputReference(data, filename, explicitMimeType, sizeRules)`
(`videos.js` lines 230-236): infer and validate the MIME type (the validation
throw becomes `Except.error`), align the buffer, wrap as a file. -/
def buildInputReference (probe : Buffer → Option (Nat × Nat))
    (resizeFn : Buffer → Nat → Nat → Option String → Buffer)
    (data : Buffer) (filename : Option String) (explicitMimeType : Option String)
    (sizeRules : List SizeRule) : Except String ReferenceMeta :=
  match ensureSupportedMimeType (inferMimeType filename explicitMimeType) filename with
  | .error e => .error e
  | .ok mimeType =>
      let alignResult := alignBufferToSupportedSize probe resizeFn data mimeType sizeRules
      .ok ⟨alignResult.buffer, mimeType, alignResult.sizeLabel⟩

/-- `createInputReferenceFromPath(filePath, sizeRules)` (`videos.js` lines
210-219): falsy path yields `undefined`; otherwise resolve the path (a
parameter), read the file (a parameter), and build the reference with the
resolved path's basename as filename. -/
def createInputReferenceFromPath (probe : Buffer → Option (Nat × Nat))
    (resizeFn : Buffer → Nat → Nat → Option String → Buffer)
    (readFile : String → Buffer) (resolvePath : String → String)
    (filePath : Option String) (sizeRules : List SizeRule) :
    Except String (Option ReferenceMeta) :=
  match filePath with
  | none => .ok none
  | some p =>
      if p = "" then .ok none
      else
        (buildInputReference probe resizeFn (readFile (resolvePath p))
          (some (pathBasename (resolvePath p))) none sizeRules).map some

/-- The filename used by `createInputReferenceFromBuffer` (`videos.js` lines
221-226): the caller's filename when truthy, else `input-reference.bin` (both
the default parameter and the `||` fallback). -/
def resolvedRefName (filename : Option String) : String :=
  match filename with
  | some f => if f ≠ "" then f else "input-reference.bin"
  | none => "input-reference.bin"

/-- `createInputReferenceFromBuffer(buffer, filename, mimeType, sizeRules)`
(`videos.js` lines 221-228): falsy buffer yields `undefined`. -/
def createInputReferenceFromBuffer (probe : Buffer → Option (Nat × Nat))
    (resizeFn : Buffer → Nat → Nat → Option String → Buffer)
    (buffer : Option Buffer) (filename : Option String) (mimeType : Option String)
    (sizeRules : List SizeRule) : Except String (Option ReferenceMeta) :=
  match buffer with
  | none => .ok none
  | some b =>
      (buildInputReference probe resizeFn b (some (resolvedRefName filename))
        mimeType sizeRules).map some

/-! ### Helper lemmas about the reference builder -/

/-- Any size label in the result of the resize step is the label of the chosen
rule, hence of a rule of the set by membership of the choice. -/
theorem alignWithTarget_label_mem (resizeFn : Buffer → Nat → Nat → Option String → Buffer)
    (buffer : Buffer) (mimeType : String) (w h : Nat) {sizeRules : List SizeRule}
    (o : Option SizeRule) (ho : ∀ c, o = some c → c ∈ sizeRules) (l : String)
    (hl : (alignWithTarget resizeFn buffer mimeType w h o).sizeLabel = some l) :
    l ∈ sizeRules.map SizeRule.label := by
  match o with
  | none => exact Option.noConfusion hl
  | some target =>
    have hmem := ho target rfl
    have hlab : (alignWithTarget resizeFn buffer mimeType w h (some target)).sizeLabel
        = some target.label := by
      by_cases hwh : target.width = w ∧ target.height = h
      · simp [alignWithTarget, hwh]
      · simp [alignWithTarget, hwh]
    rw [hlab] at hl
    have hlabel : target.label = l := Option.some.inj hl
    rw [← hlabel]
    exact List.mem_map_of_mem SizeRule.label hmem

/-- Any size label produced by `alignBufferToSupportedSize` is a label of the
rule set that was passed in. -/
theorem alignBuffer_label_mem (probe : Buffer → Option (Nat × Nat))
    (resizeFn : Buffer → Nat → Nat → Option String → Buffer)
    (buffer : Buffer) (mimeType : String) {sizeRules : List SizeRule} (l : String)
    (hl : (alignBufferToSupportedSize probe resizeFn buffer mimeType sizeRules).sizeLabel
      = some l) :
    l ∈ sizeRules.map SizeRule.label := by
  unfold alignBufferToSupportedSize at hl
  by_cases hguard : ¬ isImageMimeType mimeType ∨ sizeRules.isEmpty
  · rw [if_pos hguard] at hl
    exact Option.noConfusion hl
  · rw [if_neg hguard] at hl
    rcases hdim : getImageDimensions probe buffer with _ | ⟨w, h⟩
    · rw [hdim] at hl
      exact Option.noConfusion hl
    · rw [hdim] at hl
      exact alignWithTarget_label_mem resizeFn buffer mimeType w h
        (chooseSupportedVideoSize w h sizeRules)
        (fun c hc => chooseSupportedVideoSize_mem hc) l hl

/-- Any size label on a reference built by `buildInputReference` is a label of
the rule set that was passed in. -/
theorem buildInputReference_label_mem (probe : Buffer → Option (Nat × Nat))
    (resizeFn : Buffer → Nat → Nat → Option String → Buffer)
    (data : Buffer) (filename explicitMime : Option String)
    {sizeRules : List SizeRule} {m : ReferenceMeta} {l : String}
    (hok : buildInputReference probe resizeFn data filename explicitMime sizeRules = .ok m)
    (hl : m.sizeLabel = some l) :
    l ∈ sizeRules.map SizeRule.label := by
  unfold buildInputReference at hok
  cases hmime : ensureSupportedMimeType (inferMimeType filename explicitMime) filename with
  | error e =>
    rw [hmime] at hok
    exact Except.noConfusion hok
  | ok mt =>
    rw [hmime] at hok
    have hm : (⟨(alignBufferToSupportedSize probe resizeFn data mt sizeRules).buffer, mt,
        (alignBufferToSupportedSize probe resizeFn data mt sizeRules).sizeLabel⟩ : ReferenceMeta)
        = m := Except.ok.inj hok
    rw [← hm] at hl
    exact alignBuffer_label_mem probe resizeFn data mt l hl

/-! ### Claim C5 -/

/-- C5: whenever a built reference carries a size label, that label equals the
label of some rule of the rule set that was passed in — for
`buildInputReference` and hence for `createInputReferenceFromBuffer` and
`createInputReferenceFromPath`, by construction of the label from the chosen
rule. -/
theorem referenceMeta_sizeLabel_mem (probe : Buffer → Option (Nat × Nat))
    (resizeFn : Buffer → Nat → Nat → Option String → Buffer)
    (readFile : String → Buffer) (resolvePath : String → String)
    (sizeRules : List SizeRule) :
    (∀ data filename explicitMime m l,
      buildInputReference probe resizeFn data filename explicitMime sizeRules = .ok m →
      m.sizeLabel = some l → l ∈ sizeRules.map SizeRule.label)
    ∧ (∀ buffer filename mimeType m l,
      createInputReferenceFromBuffer probe resizeFn buffer filename mimeType sizeRules
        = .ok (some m) →
      m.sizeLabel = some l → l ∈ sizeRules.map SizeRule.label)
    ∧ (∀ filePath m l,
      createInputReferenceFromPath probe resizeFn readFile resolvePath filePath sizeRules
        = .ok (some m) →
      m.sizeLabel = some l → l ∈ sizeRules.map SizeRule.label) := by
  refine ⟨?_, ?_, ?_⟩
  · intro data filename explicitMime m l hok hl
    exact buildInputReference_label_mem probe resizeFn data filename explicitMime hok hl
  · intro buffer filename mimeType m l hok hl
    match buffer with
    | none => exact Option.noConfusion (Except.ok.inj hok)
    | some b =>
      have hok' : (buildInputReference probe resizeFn b (some (resolvedRefName filename))
          mimeType sizeRules).map some = .ok (some m) := hok
      cases hb : buildInputReference probe resizeFn b (some (resolvedRefName filename))
          mimeType sizeRules with
      | error e =>
        rw [hb] at hok'
        exact Except.noConfusion hok'
      | ok m' =>
        rw [hb] at hok'
        have hm : m' = m := Option.some.inj (Except.ok.inj hok')
        rw [hm] at hb
        exact buildInputReference_label_mem probe resizeFn b _ mimeType hb hl
  · intro filePath m l hok hl
    match filePath with
    | none => exact Option.noConfusion (Except.ok.inj hok)
    | some p =>
      have hok' : (if p = "" then (Except.ok none : Except String (Option ReferenceMeta))
          else (buildInputReference probe resizeFn (readFile (resolvePath p))
            (some (pathBasename (resolvePath p))) none sizeRules).map some)
          = .ok (some m) := hok
      by_cases hp : p = ""
      · rw [if_pos hp] at hok'
        exact Option.noConfusion (Except.ok.inj hok')
      · rw [if_neg hp] at hok'
        cases hb : buildInputReference probe resizeFn (readFile (resolvePath p))
            (some (pathBasename (resolvePath p))) none sizeRules with
        | error e =>
          rw [hb] at hok'
          exact Except.noConfusion hok'
        | ok m' =>
          rw [hb] at hok'
          have hm : m' = m := Option.some.inj (Except.ok.inj hok')
          rw [hm] at hb
          exact buildInputReference_label_mem probe resizeFn (readFile (resolvePath p))
            _ none hb hl

/-- Image probe oracle that always reports 1280x720. -/
def probe1280 : Buffer → Option (Nat × Nat) := fun _ => some (1280, 720)

/-- Image probe oracle that always fails (corrupt image). -/
def probeFail : Buffer → Option (Nat × Nat) := fun _ => none

/-- Resize oracle that returns the input bytes. -/
def resizeKeep : Buffer → Nat → Nat → Option String → Buffer := fun b _ _ _ => b

/-- Filesystem oracle that reads a one-byte file. -/
def readOne : String → Buffer := fun _ => [1]

/-- Path resolution oracle that leaves paths unchanged. -/
def resolveId : String → String := fun s => s

/-- Witness for C5: a reference built from a probed 1280x720 image over the
`sora-2` rule set carries the label `1280x720`, which the theorem places in
the rule set's labels. -/
theorem referenceMeta_sizeLabel_mem_witness :
    "1280x720" ∈ sora2Rules.map SizeRule.label :=
  (referenceMeta_sizeLabel_mem probe1280 resizeKeep readOne resolveId sora2Rules).1
    [7] (some "img.png") none ⟨[7], "image/png", some "1280x720"⟩ "1280x720"
    (by rfl) rfl

/-! ### Claim C6 -/

/-- C6: when the resolved (validated) MIME type is not an image type — among
the supported types that means `video/mp4` — or when probing the image's
dimensions fails, the builder performs no resize: it succeeds and returns the
original bytes unchanged with no size label. -/
theorem buildInputReference_skipResize (probe : Buffer → Option (Nat × Nat))
    (resizeFn : Buffer → Nat → Nat → Option String → Buffer)
    (data : Buffer) (filename explicitMime : Option String)
    (sizeRules : List SizeRule) (mime : String)
    (hok : ensureSupportedMimeType (inferMimeType filename explicitMime) filename = .ok mime)
    (hskip : isImageMimeType mime = false ∨ getImageDimensions probe data = none) :
    buildInputReference probe resizeFn data filename explicitMime sizeRules
      = .ok ⟨data, mime, none⟩ := by
  have halign : alignBufferToSupportedSize probe resizeFn data mime sizeRules
      = ⟨data, none⟩ := by
    unfold alignBufferToSupportedSize
    rcases hskip with himg | hdim
    · rw [if_pos (Or.inl (by simp [himg]))]
    · by_cases hguard : ¬ isImageMimeType mime ∨ sizeRules.isEmpty
      · rw [if_pos hguard]
      · rw [if_neg hguard, hdim]
  unfold buildInputReference
  rw [hok]
  show Except.ok (⟨(alignBufferToSupportedSize probe resizeFn data mime sizeRules).buffer,
      mime, (alignBufferToSupportedSize probe resizeFn data mime sizeRules).sizeLabel⟩ :
      ReferenceMeta) = .ok ⟨data, mime, none⟩
  rw [halign]

/-- Witness for C6 at a `video/mp4` reference (probe succeeding, never
consulted) and at an image reference whose probe fails. -/
theorem buildInputReference_skipResize_witness :
    buildInputReference probeFail resizeKeep [1, 2] (some "clip.mp4") none sora2Rules
      = .ok ⟨[1, 2], "video/mp4", none⟩ :=
  buildInputReference_skipResize probeFail resizeKeep [1, 2] (some "clip.mp4") none
    sora2Rules "video/mp4" (by rfl) (Or.inl (by rfl))

/-! ### Claim C7 -/

/-- C7: when the probed dimensions exactly equal the chosen target rule's
width and height, the builder returns the original bytes byte-identically (no
re-encode) together with a size label equal to that rule's label. -/
theorem buildInputReference_exactMatch (probe : Buffer → Option (Nat × Nat))
    (resizeFn : Buffer → Nat → Nat → Option String → Buffer)
    (data : Buffer) (filename explicitMime : Option String)
    (sizeRules : List SizeRule) (mime : String) (w h : Nat) (target : SizeRule)
    (hok : ensureSupportedMimeType (inferMimeType filename explicitMime) filename = .ok mime)
    (himg : isImageMimeType mime = true)
    (hdim : getImageDimensions probe data = some (w, h))
    (hch : chooseSupportedVideoSize w h sizeRules = some target)
    (hw : target.width = w) (hh : target.height = h) :
    buildInputReference probe resizeFn data filename explicitMime sizeRules
      = .ok ⟨data, mime, some target.label⟩ := by
  have hne : sizeRules.isEmpty = false := by
    cases hrules : sizeRules with
    | nil =>
      rw [hrules] at hch
      rw [chooseSupportedVideoSize] at hch
      simp at hch
    | cons r rest => rfl
  have halign : alignBufferToSupportedSize probe resizeFn data mime sizeRules
      = ⟨data, some target.label⟩ := by
    unfold alignBufferToSupportedSize
    rw [if_neg (by simp [himg, hne]), hdim]
    show alignWithTarget resizeFn data mime w h (chooseSupportedVideoSize w h sizeRules)
      = ⟨data, some target.label⟩
    rw [hch]
    show (if target.width = w ∧ target.height = h then
            (⟨data, some target.label⟩ : AlignResult)
          else ⟨resizeFn data target.width target.height (mimeTypeToSharpFormat mime),
                some target.label⟩) = ⟨data, some target.label⟩
    rw [if_pos ⟨hw, hh⟩]
  unfold buildInputReference
  rw [hok]
  show Except.ok (⟨(alignBufferToSupportedSize probe resizeFn data mime sizeRules).buffer,
      mime, (alignBufferToSupportedSize probe resizeFn data mime sizeRules).sizeLabel⟩ :
      ReferenceMeta) = .ok ⟨data, mime, some target.label⟩
  rw [halign]

/-- Witness for C7 at an image probed at exactly 1280x720 over the `sora-2`
rule set. -/
theorem buildInputReference_exactMatch_witness :
    buildInputReference probe1280 resizeKeep [9] (some "img.png") none sora2Rules
      = .ok ⟨[9], "image/png", some "1280x720"⟩ :=
  buildInputReference_exactMatch probe1280 resizeKeep [9] (some "img.png") none
    sora2Rules "image/png" 1280 720 ⟨"1280x720", 1280, 720⟩
    (by rfl) (by rfl) (by rfl) (by decide) rfl rfl

/-! ### Download normalization (`videos.js` lines 128-168) -/

/-- The shapes the `data` field of a wrapper object can take: a Buffer, a
`Uint8Array`, a (base64) string, an object exposing `arrayBuffer()`, a
falsy/absent value, or some other truthy value matching none of these. -/
inductive DataField where
  | dbuf : Buffer → DataField
  | du8 : Buffer → DataField
  | dstr : String → DataField
  | dab : Buffer → DataField
  | dnone : DataField
  | dmisc : DataField
deriving DecidableEq, Repr

/-- The shapes the download payload can take: null/undefined, a Buffer, a
`Uint8Array`, a Response-like object exposing `arrayBuffer()`, a plain
string, or an object carrying a `data` field. -/
inductive DownloadResource where
  | rnull : DownloadResource
  | rbuf : Buffer → DownloadResource
  | ru8 : Buffer → DownloadResource
  | rab : Buffer → DownloadResource
  | rstr : String → DownloadResource
  | robj : DataField → DownloadResource
deriving DecidableEq, Repr

/-- The message of the empty-response error (`videos.js` line 130). -/
def noDataMessage : String := "No data returned from OpenAI when downloading video."

/-- The message of the unsupported-response error (`videos.js` line 167). -/
def unsupportedDownloadMessage : String := "Unsupported download response from OpenAI client."

/-- The `resource.data` arm of `resourceToBuffer` (`videos.js` lines 146-165):
the falsy check `if (resource.data)` happens on the wrapper's field, so an
empty string, a falsy value or an unrecognized truthy value all fall through
to the unsupported-response error.  Base64 decoding (`Buffer.from(data,
'base64')`) is a parameter. -/
def dataFieldToBuffer (b64decode : String → Buffer) : DataField → Except String Buffer
  | .dbuf b => .ok b
  | .du8 b => .ok b
  | .dstr s => if s = "" then .error unsupportedDownloadMessage else .ok (b64decode s)
  | .dab b => .ok b
  | .dnone => .error unsupportedDownloadMessage
  | .dmisc => .error unsupportedDownloadMessage

/-- `resourceToBuffer(resource)` (`videos.js` lines 128-168).  A falsy
resource (null/undefined/empty string) raises the empty-response error; a
Buffer, `Uint8Array` or `arrayBuffer()`-bearing object is normalized to its
bytes; a wrapper's `data` field is normalized likewise; every other shape —
including a bare non-empty string, which has no `arrayBuffer` method and no
`data` field — raises the unsupported-response error. -/
def resourceToBuffer (b64decode : String → Buffer) :
    DownloadResource → Except String Buffer
  | .rnull => .error noDataMessage
  | .rbuf b => .ok b
  | .ru8 b => .ok b
  | .rab b => .ok b
  | .rstr s => if s = "" then .error noDataMessage else .error unsupportedDownloadMessage
  | .robj d => dataFieldToBuffer b64decode d

/-- A stub base64 decoder for closed counterexamples whose result does not
depend on decoding. -/
def b64stub : String → Buffer := fun _ => []

/-! ### Claim C9 (corrected) -/

/-- C9 counterexample: a bare base64 string returned at the top level is NOT
converted into a byte buffer — strings have no `arrayBuffer` method and no
`data` field, so `resourceToBuffer` raises the unsupported-response error —
contradicting the claim that the base64-string payload shape is normalized to
bytes. -/
theorem resourceToBuffer_bare_string_cex :
    resourceToBuffer b64stub (.rstr "QUJD") = .error unsupportedDownloadMessage := by
  rfl

/-- C9 (amended): the download normalization converts a Buffer, a
`Uint8Array`, an `arrayBuffer()`-bearing object, and a wrapper whose `data`
field is any of those or a non-empty base64 string, into a single byte
buffer; null/undefined (and the falsy empty string) raise the EmptyResponse
error `No data returned ...`; every other shape — including a bare base64
string at top level, a falsy or unrecognized `data` field — raises the
UnsupportedResponse error. -/
theorem resourceToBuffer_spec (b64decode : String → Buffer) :
    (∀ b : Buffer, resourceToBuffer b64decode (.rbuf b) = .ok b)
    ∧ (∀ b : Buffer, resourceToBuffer b64decode (.ru8 b) = .ok b)
    ∧ (∀ b : Buffer, resourceToBuffer b64decode (.rab b) = .ok b)
    ∧ (∀ b : Buffer, resourceToBuffer b64decode (.robj (.dbuf b)) = .ok b)
    ∧ (∀ b : Buffer, resourceToBuffer b64decode (.robj (.du8 b)) = .ok b)
    ∧ (∀ b : Buffer, resourceToBuffer b64decode (.robj (.dab b)) = .ok b)
    ∧ (∀ s : String, s ≠ "" →
        resourceToBuffer b64decode (.robj (.dstr s)) = .ok (b64decode s))
    ∧ resourceToBuffer b64decode .rnull = .error noDataMessage
    ∧ resourceToBuffer b64decode (.rstr "") = .error noDataMessage
    ∧ (∀ s : String, s ≠ "" →
        resourceToBuffer b64decode (.rstr s) = .error unsupportedDownloadMessage)
    ∧ resourceToBuffer b64decode (.robj (.dstr "")) = .error unsupportedDownloadMessage
    ∧ resourceToBuffer b64decode (.robj .dnone) = .error unsupportedDownloadMessage
    ∧ resourceToBuffer b64decode (.robj .dmisc) = .error unsupportedDownloadMessage := by
  refine ⟨fun b => rfl, fun b => rfl, fun b => rfl, fun b => rfl, fun b => rfl, fun b => rfl,
    ?_, rfl, rfl, ?_, rfl, rfl, rfl⟩
  · intro s hs
    show (if s = "" then Except.error unsupportedDownloadMessage else .ok (b64decode s))
      = .ok (b64decode s)
    rw [if_neg hs]
  · intro s hs
    show (if s = "" then (Except.error noDataMessage : Except String Buffer)
          else .error unsupportedDownloadMessage) = .error unsupportedDownloadMessage
    rw [if_neg hs]

/-- Witness for C9's amended theorem: a wrapper carrying a non-empty base64
string is decoded. -/
theorem resourceToBuffer_spec_witness :
    resourceToBuffer b64stub (.robj (.dstr "QUJD")) = .ok (b64stub "QUJD") :=
  (resourceToBuffer_spec b64stub).2.2.2.2.2.2.1 "QUJD" (by decide)

/-! ### The createVideo body assembly (`videos.js` lines 74-102)

The payload is a JavaScript object; `createVideo` copies it shallowly
(`const body = { ...payload }`) and mutates only the copy.  Objects are
modelled as field lists, and the two objects live in a two-slot store —
the caller's payload at address 0, the body at address 1 — so that the
frame property (the payload is never written) is a statement about the
store, not a triviality of pure values. -/

/-- Values of payload fields: a string, an uploadable file object (bytes), or
a reference-meta-like object `{file?, sizeLabel?}` as accepted for
`input_reference`. -/
inductive JSVal where
  | vstr : String → JSVal
  | vfile : Buffer → JSVal
  | vrefMeta : Option Buffer → Option String → JSVal
deriving DecidableEq, Repr

/-- A JavaScript object as an ordered field list (keys unique in practice;
reads take the first occurrence, writes update it in place). -/
abbrev Obj := List (String × JSVal)

/-- Property read `o[k]`; `none` models `undefined` (first occurrence wins,
keys are unique in objects built from literals). -/
def getField : Obj → String → Option JSVal
  | [], _ => none
  | (k0, v0) :: rest, k => if k0 = k then some v0 else getField rest k

/-- Property write `o[k] = v`: update the first occurrence in place, else
append. -/
def setField : Obj → String → JSVal → Obj
  | [], k, v => [(k, v)]
  | (k0, v0) :: rest, k, v =>
      if k0 = k then (k, v) :: rest else (k0, v0) :: setField rest k v

/-- Property deletion `delete o[k]`. -/
def removeField : Obj → String → Obj
  | [], _ => []
  | (k0, v0) :: rest, k =>
      if k0 = k then removeField rest k else (k0, v0) :: removeField rest k

/-- A two-object heap: address 0 holds the caller's payload, address 1 the
body created by the object spread. -/
abbrev Store := List Obj

/-- Read the object at an address (defaulting to the empty object). -/
def storeGet (σ : Store) (a : Nat) : Obj := (σ.get? a).getD []

/-- Replace the object at an address. -/
def storeSet (σ : Store) (a : Nat) (o : Obj) : Store := σ.set a o

/-- Write one field of the object at an address. -/
def storeWrite (σ : Store) (a : Nat) (k : String) (v : JSVal) : Store :=
  storeSet σ a (setField (storeGet σ a) k v)

/-- Delete one field of the object at an address. -/
def storeDelete (σ : Store) (a : Nat) (k : String) : Store :=
  storeSet σ a (removeField (storeGet σ a) k)

/-- The external collaborators `createVideo` needs, plus the environment
constants: the probe and resize oracles of the reference builder, the
filesystem read, `path.resolve`, JavaScript `String()` conversion for
non-string truthy values, and `DEFAULT_VIDEO_SIZE`. -/
structure CreateEnv where
  probe : Buffer → Option (Nat × Nat)
  resizeFn : Buffer → Nat → Nat → Option String → Buffer
  readFile : String → Buffer
  resolvePath : String → String
  stringify : JSVal → String
  defaultVideoSize : String

/-- `body.model || 'sora-2'` (`videos.js` line 80), as used for the rule-set
lookup: a truthy string is used as the key; a falsy or non-string value makes
the lookup miss and fall to the default rules, which equals looking up
`sora-2`. -/
def bodyModel (o : Obj) : String :=
  match getField o "model" with
  | some (.vstr s) => if s ≠ "" then s else "sora-2"
  | _ => "sora-2"

/-- JavaScript `a || b` on strings (used for the `size` fallbacks). -/
def jsOrStr (a b : String) : String := if a ≠ "" then a else b

/-- `sizeRules[0]?.label` (`videos.js` lines 96, 98), with `undefined`
modelled by the empty string (itself falsy for the following `||`). -/
def firstRuleLabel (sizeRules : List SizeRule) : String :=
  ((sizeRules.head?).map SizeRule.label).getD ""

/-- The `else if (body.input_reference && body.input_reference.file)` branch
(`videos.js` lines 88-91): a reference-meta-like object with a truthy `file`
is unwrapped into the body and its label is remembered; anything else leaves
the body alone with no reference.  Returns the new store and
`referenceMeta?.sizeLabel` (outer `none` when no reference was taken). -/
def referenceFromBody (σ : Store) (b : Nat) : Store × Option (Option String) :=
  match getField (storeGet σ b) "input_reference" with
  | some (.vrefMeta (some f) lbl) =>
      (storeWrite σ b "input_reference" (.vfile f), some lbl)
  | _ => (σ, none)

/-- The reference step of `createVideo` (`videos.js` lines 84-91): a truthy
`input_reference_path` string is built into a reference from the filesystem
(its failure propagating), the file is stored on the body and the path field
deleted; a non-string truthy path makes `path.resolve` throw a `TypeError`;
otherwise the caller-supplied `input_reference` object is considered.  The
path branch is `referenceFromPathStep`; `referenceStep` dispatches on the
body's `input_reference_path` field. -/
def referenceFromPathStep (env : CreateEnv) (σ : Store) (b : Nat)
    (sizeRules : List SizeRule) (p : String) :
    Except String (Store × Option (Option String)) :=
  match createInputReferenceFromPath env.probe env.resizeFn env.readFile
      env.resolvePath (some p) sizeRules with
  | .error e => .error e
  | .ok none => .error "TypeError: Cannot read properties of undefined"
  | .ok (some m) =>
      .ok (storeDelete (storeWrite σ b "input_reference" (.vfile m.file))
            b "input_reference_path",
           some m.sizeLabel)

def referenceStep (env : CreateEnv) (σ : Store) (b : Nat) (sizeRules : List SizeRule) :
    Except String (Store × Option (Option String)) :=
  match getField (storeGet σ b) "input_reference_path" with
  | some (.vstr p) =>
      if p ≠ "" then referenceFromPathStep env σ b sizeRules p
      else referenceFromBody σ b |> .ok
  | some (.vfile _) => .error "TypeError: The path argument must be of type string"
  | some (.vrefMeta _ _) => .error "TypeError: The path argument must be of type string"
  | none => referenceFromBody σ b |> .ok

/-- The `else if (body.size)` / `else` arms of the size step (`videos.js`
lines 95-99): a truthy string size is coerced with the `|| rules[0]?.label ||
DEFAULT_VIDEO_SIZE` fallbacks; a truthy non-string value is stringified by
`normalizeSizeLabel`'s `String()` (the coercion guard returns the value
itself when the rule set is empty); a falsy or absent size gets
`rules[0]?.label || DEFAULT_VIDEO_SIZE`. -/
def sizeFromBody (env : CreateEnv) (σ : Store) (b : Nat) (sizeRules : List SizeRule) :
    Store :=
  match getField (storeGet σ b) "size" with
  | some (.vstr s) =>
      if s ≠ "" then
        storeWrite σ b "size" (.vstr (jsOrStr (coerceSizeToSupported s sizeRules)
          (jsOrStr (firstRuleLabel sizeRules) env.defaultVideoSize)))
      else
        storeWrite σ b "size" (.vstr (jsOrStr (firstRuleLabel sizeRules)
          env.defaultVideoSize))
  | some (.vfile bts) =>
      if sizeRules.isEmpty then storeWrite σ b "size" (.vfile bts)
      else
        storeWrite σ b "size" (.vstr (jsOrStr
          (coerceCore (env.stringify (.vfile bts)) sizeRules)
          (jsOrStr (firstRuleLabel sizeRules) env.defaultVideoSize)))
  | some (.vrefMeta f lbl) =>
      if sizeRules.isEmpty then storeWrite σ b "size" (.vrefMeta f lbl)
      else
        storeWrite σ b "size" (.vstr (jsOrStr
          (coerceCore (env.stringify (.vrefMeta f lbl)) sizeRules)
          (jsOrStr (firstRuleLabel sizeRules) env.defaultVideoSize)))
  | none =>
      storeWrite σ b "size" (.vstr (jsOrStr (firstRuleLabel sizeRules)
        env.defaultVideoSize))

/-- The size step of `createVideo` (`videos.js` lines 93-99): a truthy
reference size label wins outright; otherwise the body's own `size` decides. -/
def sizeStep (env : CreateEnv) (σ : Store) (b : Nat) (sizeRules : List SizeRule) :
    Option (Option String) → Store
  | some (some l) =>
      if l ≠ "" then storeWrite σ b "size" (.vstr l)
      else sizeFromBody env σ b sizeRules
  | some none => sizeFromBody env σ b sizeRules
  | none => sizeFromBody env σ b sizeRules

/-- The body assembly of `createVideo(payload)` (`videos.js` lines 74-101):
allocate the payload at address 0 and its shallow copy (the body) at address
1, run the reference step then the size step on the body, and return the
final store together with the body's address (or the propagated error).  The
upstream `videos.create(body, ...)` call itself is outside the model. -/
def createVideoExec (env : CreateEnv) (payload : Obj) : Store × Except String Nat :=
  match referenceStep env [payload, payload] 1
      (getSizeRules (bodyModel (storeGet [payload, payload] 1))) with
  | .error e => ([payload, payload], .error e)
  | .ok (σ2, refLbl) =>
      (sizeStep env σ2 1 (getSizeRules (bodyModel (storeGet [payload, payload] 1))) refLbl,
       .ok 1)

/-! ### Helper lemmas about objects, the store and the rule tables -/

/-- Writing a field makes it readable. -/
theorem getField_setField_same (o : Obj) (k : String) (v : JSVal) :
    getField (setField o k v) k = some v := by
  induction o with
  | nil => simp [setField, getField]
  | cons p rest ih =>
    obtain ⟨k0, v0⟩ := p
    by_cases h : k0 = k
    · simp [setField, getField, h]
    · simp [setField, getField, h, ih]

/-- Writing one field leaves the others unchanged. -/
theorem getField_setField_ne (o : Obj) {k k' : String} (v : JSVal) (h : k' ≠ k) :
    getField (setField o k v) k' = getField o k' := by
  induction o with
  | nil => simp [setField, getField, Ne.symm h]
  | cons p rest ih =>
    obtain ⟨k0, v0⟩ := p
    by_cases h0 : k0 = k
    · subst h0
      simp [setField, getField, Ne.symm h]
    · simp [setField, getField, h0, ih]

/-- Deleting one field leaves the others unchanged. -/
theorem getField_removeField_ne (o : Obj) {k k' : String} (h : k' ≠ k) :
    getField (removeField o k) k' = getField o k' := by
  induction o with
  | nil => simp [removeField, getField]
  | cons p rest ih =>
    obtain ⟨k0, v0⟩ := p
    by_cases h0 : k0 = k
    · subst h0
      simp [removeField, getField, Ne.symm h, ih]
    · simp [removeField, getField, h0, ih]

/-- Reading slot 0 of the two-object store. -/
theorem storeGet_two_zero (o0 o1 : Obj) : storeGet [o0, o1] 0 = o0 := rfl

/-- Reading slot 1 of the two-object store. -/
theorem storeGet_two_one (o0 o1 : Obj) : storeGet [o0, o1] 1 = o1 := rfl

/-- Writing through slot 1 of the two-object store. -/
theorem storeWrite_two (o0 o1 : Obj) (k : String) (v : JSVal) :
    storeWrite [o0, o1] 1 k v = [o0, setField o1 k v] := rfl

/-- Deleting through slot 1 of the two-object store. -/
theorem storeDelete_two (o0 o1 : Obj) (k : String) :
    storeDelete [o0, o1] 1 k = [o0, removeField o1 k] := rfl

/-- The rule-set lookup only ever produces the two fixed tables. -/
theorem getSizeRules_cases (m : String) :
    getSizeRules m = sora2Rules ∨ getSizeRules m = sora2ProRules := by
  by_cases h1 : "sora-2" = m
  · left
    rw [← h1]
    rfl
  · by_cases h2 : "sora-2-pro" = m
    · right
      rw [← h2]
      rfl
    · left
      have hf : MODEL_SIZE_RULES.find? (fun p => p.1 = m) = none := by
        apply List.find?_eq_none.mpr
        intro p hp
        unfold MODEL_SIZE_RULES at hp
        have hp' : p = ("sora-2", sora2Rules) ∨ p = ("sora-2-pro", sora2ProRules) := by
          rcases List.mem_cons.mp hp with h | h
          · left; exact h
          · rcases List.mem_cons.mp h with h' | h'
            · right; exact h'
            · cases h'
        rcases hp' with hp' | hp' <;> subst hp' <;> simp [h1, h2]
      unfold getSizeRules
      rw [hf]
      rfl

/-- The rule-set lookup never produces an empty rule set. -/
theorem getSizeRules_ne_nil (m : String) : getSizeRules m ≠ [] := by
  rcases getSizeRules_cases m with h | h <;> rw [h] <;> decide

/-- Every label of a looked-up rule set is a non-empty string. -/
theorem getSizeRules_labels_ne (m : String) :
    ∀ l ∈ (getSizeRules m).map SizeRule.label, l ≠ "" := by
  rcases getSizeRules_cases m with h | h <;> rw [h] <;> decide

/-- The in-body reference branch only ever writes the body slot. -/
theorem referenceFromBody_shape (o0 o1 : Obj) :
    ∃ o', (referenceFromBody [o0, o1] 1).1 = [o0, o'] := by
  unfold referenceFromBody
  split
  · exact ⟨_, rfl⟩
  · exact ⟨o1, rfl⟩

/-- The reference step only ever writes the body slot: on success the
payload slot is untouched. -/
theorem referenceStep_shape (env : CreateEnv) (o0 o1 : Obj) (rules : List SizeRule)
    (σ' : Store) (r : Option (Option String))
    (h : referenceStep env [o0, o1] 1 rules = .ok (σ', r)) :
    ∃ o', σ' = [o0, o'] := by
  unfold referenceStep at h
  split at h
  · split at h
    · unfold referenceFromPathStep at h
      split at h
      · exact Except.noConfusion h
      · exact Except.noConfusion h
      · have hσ := congrArg Prod.fst (Except.ok.inj h)
        exact ⟨_, hσ.symm⟩
    · have hpair := Except.ok.inj h
      have hσ : (referenceFromBody [o0, o1] 1).1 = σ' := congrArg Prod.fst hpair
      obtain ⟨o', ho⟩ := referenceFromBody_shape o0 o1
      exact ⟨o', hσ ▸ ho⟩
  · exact Except.noConfusion h
  · exact Except.noConfusion h
  · have hpair := Except.ok.inj h
    have hσ : (referenceFromBody [o0, o1] 1).1 = σ' := congrArg Prod.fst hpair
    obtain ⟨o', ho⟩ := referenceFromBody_shape o0 o1
    exact ⟨o', hσ ▸ ho⟩

/-- The size fallback only ever writes the body slot. -/
theorem sizeFromBody_shape (env : CreateEnv) (o0 o1 : Obj) (rules : List SizeRule) :
    ∃ o', sizeFromBody env [o0, o1] 1 rules = [o0, o'] := by
  unfold sizeFromBody
  split
  · split
    · exact ⟨_, rfl⟩
    · exact ⟨_, rfl⟩
  · split
    · exact ⟨_, rfl⟩
    · exact ⟨_, rfl⟩
  · split
    · exact ⟨_, rfl⟩
    · exact ⟨_, rfl⟩
  · exact ⟨_, rfl⟩

/-- The size step only ever writes the body slot. -/
theorem sizeStep_shape (env : CreateEnv) (o0 o1 : Obj) (rules : List SizeRule)
    (r : Option (Option String)) :
    ∃ o', sizeStep env [o0, o1] 1 rules r = [o0, o'] := by
  unfold sizeStep
  split
  · split
    · exact ⟨_, rfl⟩
    · exact sizeFromBody_shape env o0 o1 rules
  · exact sizeFromBody_shape env o0 o1 rules
  · exact sizeFromBody_shape env o0 o1 rules

/-! ### Claim C10 -/

/-- C10: `createVideo` never mutates the caller's payload object: the body is
a shallow copy (the spread on `videos.js` line 79) and every write of the
reference and size steps targets the copy, so after the call the payload —
every one of its top-level fields included — is exactly as the caller set
it. -/
theorem createVideo_payload_unchanged (env : CreateEnv) (payload : Obj) :
    storeGet (createVideoExec env payload).1 0 = payload
    ∧ ∀ k, getField (storeGet (createVideoExec env payload).1 0) k
        = getField payload k := by
  have hmain : storeGet (createVideoExec env payload).1 0 = payload := by
    unfold createVideoExec
    rcases hrs : referenceStep env [payload, payload] 1
        (getSizeRules (bodyModel (storeGet [payload, payload] 1))) with e | ⟨σ2, refLbl⟩
    · rfl
    · obtain ⟨o', ho⟩ := referenceStep_shape env payload payload _ σ2 refLbl hrs
      show storeGet (sizeStep env σ2 1
        (getSizeRules (bodyModel (storeGet [payload, payload] 1))) refLbl) 0 = payload
      rw [ho]
      obtain ⟨o'', ho2⟩ := sizeStep_shape env payload o'
        (getSizeRules (bodyModel (storeGet [payload, payload] 1))) refLbl
      rw [ho2]
      rfl
  exact ⟨hmain, fun k => by rw [hmain]⟩

/-! ### Evaluation lemmas for the createVideo steps -/

/-- A payload whose `input_reference_path` is absent or falsy (the empty
string). -/
def pathFalsy (o : Obj) : Prop :=
  getField o "input_reference_path" = none
  ∨ getField o "input_reference_path" = some (.vstr "")

/-- The size label an attached `input_reference` object would contribute: the
`sizeLabel` of a reference-meta-like value with a truthy `file`, when that
label is itself truthy. -/
def refLabelOf (o : Obj) : Option String :=
  match getField o "input_reference" with
  | some (.vrefMeta (some _) (some l)) => if l ≠ "" then some l else none
  | _ => none

/-- The reference step on a truthy string path whose reference builds
successfully. -/
theorem referenceStep_path_eval (env : CreateEnv) (o0 o1 : Obj) (rules : List SizeRule)
    (p : String) (m : ReferenceMeta)
    (hp : getField o1 "input_reference_path" = some (.vstr p)) (hp0 : p ≠ "")
    (hcr : createInputReferenceFromPath env.probe env.resizeFn env.readFile
      env.resolvePath (some p) rules = .ok (some m)) :
    referenceStep env [o0, o1] 1 rules
      = .ok ([o0, removeField (setField o1 "input_reference" (.vfile m.file))
              "input_reference_path"], some m.sizeLabel) := by
  unfold referenceStep
  rw [storeGet_two_one, hp]
  show (if p ≠ "" then referenceFromPathStep env [o0, o1] 1 rules p
        else referenceFromBody [o0, o1] 1 |> .ok)
    = .ok ([o0, removeField (setField o1 "input_reference" (.vfile m.file))
            "input_reference_path"], some m.sizeLabel)
  rw [if_pos hp0]
  unfold referenceFromPathStep
  rw [hcr]
  rfl

/-- The reference step falls through to the in-body reference when the path is
absent or falsy. -/
theorem referenceStep_noPath_eval (env : CreateEnv) (o0 o1 : Obj) (rules : List SizeRule)
    (hp : getField o1 "input_reference_path" = none
      ∨ getField o1 "input_reference_path" = some (.vstr "")) :
    referenceStep env [o0, o1] 1 rules = .ok (referenceFromBody [o0, o1] 1) := by
  unfold referenceStep
  rcases hp with hp | hp
  · rw [storeGet_two_one, hp]
  · rw [storeGet_two_one, hp]
    show (if ("" : String) ≠ "" then referenceFromPathStep env [o0, o1] 1 rules ""
          else referenceFromBody [o0, o1] 1 |> .ok)
      = .ok (referenceFromBody [o0, o1] 1)
    rw [if_neg (fun hc => hc rfl)]

/-- The in-body reference branch on a reference-meta value with a truthy
file. -/
theorem referenceFromBody_refMeta_eval (o0 o1 : Obj) (f : Buffer) (lbl : Option String)
    (hr : getField o1 "input_reference" = some (.vrefMeta (some f) lbl)) :
    referenceFromBody [o0, o1] 1
      = ([o0, setField o1 "input_reference" (.vfile f)], some lbl) := by
  unfold referenceFromBody
  rw [storeGet_two_one, hr]
  rfl

/-- The in-body reference branch on any other shape leaves the store alone. -/
theorem referenceFromBody_other_eval (o0 o1 : Obj)
    (hr : ∀ f lbl, getField o1 "input_reference" ≠ some (.vrefMeta (some f) lbl)) :
    referenceFromBody [o0, o1] 1 = ([o0, o1], none) := by
  unfold referenceFromBody
  rw [storeGet_two_one]
  rcases hgr : getField o1 "input_reference" with _ | v
  · rfl
  · match v with
    | .vstr t => rfl
    | .vfile bb => rfl
    | .vrefMeta none lbl => rfl
    | .vrefMeta (some f) lbl => exact absurd hgr (hr f lbl)

/-- The size step on a truthy reference label writes that label. -/
theorem sizeStep_label_eval (env : CreateEnv) (σ : Store) (b : Nat)
    (rules : List SizeRule) (l : String) (hl : l ≠ "") :
    sizeStep env σ b rules (some (some l)) = storeWrite σ b "size" (.vstr l) := by
  show (if l ≠ "" then storeWrite σ b "size" (.vstr l) else sizeFromBody env σ b rules)
    = storeWrite σ b "size" (.vstr l)
  rw [if_pos hl]

/-- The size step without a truthy reference label falls through to the body's
own size. -/
theorem sizeStep_noLabel_eval (env : CreateEnv) (σ : Store) (b : Nat)
    (rules : List SizeRule) (r : Option (Option String))
    (hr : r = none ∨ r = some none ∨ r = some (some "")) :
    sizeStep env σ b rules r = sizeFromBody env σ b rules := by
  rcases hr with hr | hr | hr <;> subst hr
  · rfl
  · rfl
  · show (if ("" : String) ≠ "" then storeWrite σ b "size" (.vstr "")
          else sizeFromBody env σ b rules) = sizeFromBody env σ b rules
    rw [if_neg (fun hc => hc rfl)]

/-- The size fallback on a truthy string size coerces it (with the
first-label/default fallbacks). -/
theorem sizeFromBody_str_eval (env : CreateEnv) (o0 o1 : Obj) (rules : List SizeRule)
    (s : String) (hs : getField o1 "size" = some (.vstr s)) (hs0 : s ≠ "") :
    sizeFromBody env [o0, o1] 1 rules
      = [o0, setField o1 "size" (.vstr (jsOrStr (coerceSizeToSupported s rules)
          (jsOrStr (firstRuleLabel rules) env.defaultVideoSize)))] := by
  unfold sizeFromBody
  rw [storeGet_two_one, hs]
  show (if s ≠ "" then
          storeWrite [o0, o1] 1 "size" (.vstr (jsOrStr (coerceSizeToSupported s rules)
            (jsOrStr (firstRuleLabel rules) env.defaultVideoSize)))
        else storeWrite [o0, o1] 1 "size" (.vstr (jsOrStr (firstRuleLabel rules)
          env.defaultVideoSize)))
      = [o0, setField o1 "size" (.vstr (jsOrStr (coerceSizeToSupported s rules)
          (jsOrStr (firstRuleLabel rules) env.defaultVideoSize)))]
  rw [if_pos hs0]
  rfl

/-- The size fallback on an absent or falsy size takes the first label (or the
default size). -/
theorem sizeFromBody_default_eval (env : CreateEnv) (o0 o1 : Obj) (rules : List SizeRule)
    (hs : getField o1 "size" = none ∨ getField o1 "size" = some (.vstr "")) :
    sizeFromBody env [o0, o1] 1 rules
      = [o0, setField o1 "size" (.vstr (jsOrStr (firstRuleLabel rules)
          env.defaultVideoSize))] := by
  unfold sizeFromBody
  rcases hs with hs | hs
  · rw [storeGet_two_one, hs]
    rfl
  · rw [storeGet_two_one, hs]
    show (if ("" : String) ≠ "" then
            storeWrite [o0, o1] 1 "size" (.vstr (jsOrStr (coerceSizeToSupported "" rules)
              (jsOrStr (firstRuleLabel rules) env.defaultVideoSize)))
          else storeWrite [o0, o1] 1 "size" (.vstr (jsOrStr (firstRuleLabel rules)
            env.defaultVideoSize)))
        = [o0, setField o1 "size" (.vstr (jsOrStr (firstRuleLabel rules)
            env.defaultVideoSize))]
    rw [if_neg (fun hc => hc rfl)]
    rfl

/-- Reduction of the body assembly once the reference step's outcome is
known. -/
theorem createVideoExec_ok (env : CreateEnv) (payload : Obj) (σ2 : Store)
    (refLbl : Option (Option String))
    (h : referenceStep env [payload, payload] 1
      (getSizeRules (bodyModel payload)) = .ok (σ2, refLbl)) :
    createVideoExec env payload
      = (sizeStep env σ2 1 (getSizeRules (bodyModel payload)) refLbl, .ok 1) := by
  unfold createVideoExec
  rw [storeGet_two_one, h]

/-- With a falsy path and no usable reference label, the body assembly reduces
to the plain size fallback over a body whose `size` field is the caller's. -/
theorem createVideoExec_noRef (env : CreateEnv) (payload : Obj)
    (hpf : pathFalsy payload) (hnl : refLabelOf payload = none) :
    ∃ o', createVideoExec env payload
        = (sizeFromBody env [payload, o'] 1 (getSizeRules (bodyModel payload)), .ok 1)
      ∧ getField o' "size" = getField payload "size" := by
  have hpf' : getField payload "input_reference_path" = none
      ∨ getField payload "input_reference_path" = some (.vstr "") := hpf
  have hrs := referenceStep_noPath_eval env payload payload
    (getSizeRules (bodyModel payload)) hpf'
  rcases hgr : getField payload "input_reference" with _ | v
  · have hother : ∀ f lbl, getField payload "input_reference"
        ≠ some (.vrefMeta (some f) lbl) := by
      intro f lbl hcontra
      rw [hgr] at hcontra
      cases hcontra
    rw [referenceFromBody_other_eval payload payload hother] at hrs
    refine ⟨payload, ?_, rfl⟩
    rw [createVideoExec_ok env payload _ _ hrs,
        sizeStep_noLabel_eval env _ 1 _ none (Or.inl rfl)]
  · rcases v with t | bb | ⟨ff, lbl⟩
    · have hother : ∀ f lbl, getField payload "input_reference"
          ≠ some (.vrefMeta (some f) lbl) := by
        intro f lbl hcontra
        rw [hgr] at hcontra
        simp at hcontra
      rw [referenceFromBody_other_eval payload payload hother] at hrs
      refine ⟨payload, ?_, rfl⟩
      rw [createVideoExec_ok env payload _ _ hrs,
          sizeStep_noLabel_eval env _ 1 _ none (Or.inl rfl)]
    · have hother : ∀ f lbl, getField payload "input_reference"
          ≠ some (.vrefMeta (some f) lbl) := by
        intro f lbl hcontra
        rw [hgr] at hcontra
        simp at hcontra
      rw [referenceFromBody_other_eval payload payload hother] at hrs
      refine ⟨payload, ?_, rfl⟩
      rw [createVideoExec_ok env payload _ _ hrs,
          sizeStep_noLabel_eval env _ 1 _ none (Or.inl rfl)]
    · rcases ff with _ | f
      · have hother : ∀ f lbl, getField payload "input_reference"
            ≠ some (.vrefMeta (some f) lbl) := by
          intro f lbl hcontra
          rw [hgr] at hcontra
          simp at hcontra
        rw [referenceFromBody_other_eval payload payload hother] at hrs
        refine ⟨payload, ?_, rfl⟩
        rw [createVideoExec_ok env payload _ _ hrs,
            sizeStep_noLabel_eval env _ 1 _ none (Or.inl rfl)]
      · rw [referenceFromBody_refMeta_eval payload payload f lbl hgr] at hrs
        have hr : (some lbl : Option (Option String)) = none
            ∨ some lbl = some none ∨ some lbl = some (some "") := by
          rcases lbl with _ | l'
          · exact Or.inr (Or.inl rfl)
          · by_cases hl' : l' ≠ ""
            · exfalso
              unfold refLabelOf at hnl
              rw [hgr] at hnl
              have hnl' : (if l' ≠ "" then some l' else none) = none := hnl
              rw [if_pos hl'] at hnl'
              cases hnl'
            · push_neg at hl'
              rw [hl']
              exact Or.inr (Or.inr rfl)
        refine ⟨setField payload "input_reference" (.vfile f), ?_, ?_⟩
        · rw [createVideoExec_ok env payload _ _ hrs,
              sizeStep_noLabel_eval env _ 1 _ (some lbl) hr]
        · exact getField_setField_ne payload (.vfile f)
            (show ("size" : String) ≠ "input_reference" by decide)

/-- Final size read after the plain size fallback on a truthy string size:
the coercion result wins its `||` fallbacks because it is a label of the
looked-up rule set and those labels are non-empty. -/
theorem sizeFromBody_final_str (env : CreateEnv) (o0 o' : Obj) (mm : String) (s : String)
    (hs' : getField o' "size" = some (.vstr s)) (hs0 : s ≠ "") :
    getField (storeGet (sizeFromBody env [o0, o'] 1 (getSizeRules mm)) 1) "size"
      = some (.vstr (coerceSizeToSupported s (getSizeRules mm))) := by
  have hcoene : coerceSizeToSupported s (getSizeRules mm) ≠ "" :=
    getSizeRules_labels_ne mm _
      (coerceSizeToSupported_mem hs0 (getSizeRules_ne_nil mm))
  have hX : jsOrStr (coerceSizeToSupported s (getSizeRules mm))
      (jsOrStr (firstRuleLabel (getSizeRules mm)) env.defaultVideoSize)
      = coerceSizeToSupported s (getSizeRules mm) := by
    unfold jsOrStr
    rw [if_pos hcoene]
  rw [sizeFromBody_str_eval env o0 o' _ s hs' hs0, storeGet_two_one,
      getField_setField_same, hX]

/-- Final size read after the plain size fallback on an absent or falsy size:
the looked-up rule set's first label wins its `||` fallback because it is
non-empty. -/
theorem sizeFromBody_final_default (env : CreateEnv) (o0 o' : Obj) (mm : String)
    (hs' : getField o' "size" = none ∨ getField o' "size" = some (.vstr "")) :
    ∃ r₀ rest, getSizeRules mm = r₀ :: rest
    ∧ getField (storeGet (sizeFromBody env [o0, o'] 1 (getSizeRules mm)) 1) "size"
      = some (.vstr r₀.label) := by
  obtain ⟨r₀, rest, hrules⟩ : ∃ r₀ rest, getSizeRules mm = r₀ :: rest := by
    rcases h : getSizeRules mm with _ | ⟨a, b⟩
    · exact absurd h (getSizeRules_ne_nil mm)
    · exact ⟨a, b, rfl⟩
  have hfl0 : r₀.label ≠ "" := by
    apply getSizeRules_labels_ne mm r₀.label
    rw [hrules]
    exact List.mem_map_of_mem _ (List.mem_cons_self _ _)
  have hX : jsOrStr (firstRuleLabel (getSizeRules mm)) env.defaultVideoSize
      = r₀.label := by
    rw [hrules]
    show jsOrStr r₀.label env.defaultVideoSize = r₀.label
    unfold jsOrStr
    rw [if_pos hfl0]
  refine ⟨r₀, rest, hrules, ?_⟩
  rw [sizeFromBody_default_eval env o0 o' _ hs', storeGet_two_one,
      getField_setField_same, hX]

/-! ### Claim C3 -/

/-- C3: the size field of the body sent upstream follows the precedence (1) a
truthy size label from an attached input reference — built from a truthy
`input_reference_path` or supplied as an `input_reference` object with a
truthy `file` — wins over everything; (2) else a truthy caller-supplied size
string is coerced through `coerceSizeToSupported`; (3) else the model's rule
set's first label is used: in particular a request with no size and no
reference gets the model's first rule label.  The coercion and default
clauses cover both ways a reference can fail to yield a truthy label: no
reference attached at all (clauses three and four), and a reference built
from a truthy `input_reference_path` whose `sizeLabel` is absent or falsy —
a video guide or a failed probe (clauses five and six). -/
theorem createVideo_size_precedence (env : CreateEnv) (payload : Obj) :
    (∀ p m l, getField payload "input_reference_path" = some (.vstr p) → p ≠ "" →
      createInputReferenceFromPath env.probe env.resizeFn env.readFile env.resolvePath
        (some p) (getSizeRules (bodyModel payload)) = .ok (some m) →
      m.sizeLabel = some l → l ≠ "" →
      (createVideoExec env payload).2 = .ok 1
      ∧ getField (storeGet (createVideoExec env payload).1 1) "size" = some (.vstr l))
    ∧ (pathFalsy payload → ∀ f l, getField payload "input_reference"
        = some (.vrefMeta (some f) (some l)) → l ≠ "" →
      (createVideoExec env payload).2 = .ok 1
      ∧ getField (storeGet (createVideoExec env payload).1 1) "size" = some (.vstr l))
    ∧ (pathFalsy payload → refLabelOf payload = none →
       ∀ s, getField payload "size" = some (.vstr s) → s ≠ "" →
      (createVideoExec env payload).2 = .ok 1
      ∧ getField (storeGet (createVideoExec env payload).1 1) "size"
        = some (.vstr (coerceSizeToSupported s (getSizeRules (bodyModel payload)))))
    ∧ (pathFalsy payload → refLabelOf payload = none →
       (getField payload "size" = none ∨ getField payload "size" = some (.vstr "")) →
      ∃ r₀ rest, getSizeRules (bodyModel payload) = r₀ :: rest
      ∧ (createVideoExec env payload).2 = .ok 1
      ∧ getField (storeGet (createVideoExec env payload).1 1) "size"
        = some (.vstr r₀.label))
    ∧ (∀ p m, getField payload "input_reference_path" = some (.vstr p) → p ≠ "" →
      createInputReferenceFromPath env.probe env.resizeFn env.readFile env.resolvePath
        (some p) (getSizeRules (bodyModel payload)) = .ok (some m) →
      (m.sizeLabel = none ∨ m.sizeLabel = some "") →
      ∀ s, getField payload "size" = some (.vstr s) → s ≠ "" →
      (createVideoExec env payload).2 = .ok 1
      ∧ getField (storeGet (createVideoExec env payload).1 1) "size"
        = some (.vstr (coerceSizeToSupported s (getSizeRules (bodyModel payload)))))
    ∧ (∀ p m, getField payload "input_reference_path" = some (.vstr p) → p ≠ "" →
      createInputReferenceFromPath env.probe env.resizeFn env.readFile env.resolvePath
        (some p) (getSizeRules (bodyModel payload)) = .ok (some m) →
      (m.sizeLabel = none ∨ m.sizeLabel = some "") →
      (getField payload "size" = none ∨ getField payload "size" = some (.vstr "")) →
      ∃ r₀ rest, getSizeRules (bodyModel payload) = r₀ :: rest
      ∧ (createVideoExec env payload).2 = .ok 1
      ∧ getField (storeGet (createVideoExec env payload).1 1) "size"
        = some (.vstr r₀.label)) := by
  refine ⟨?_, ?_, ?_, ?_, ?_, ?_⟩
  · intro p m l hp hp0 hcr hml hl0
    have hrs := referenceStep_path_eval env payload payload
      (getSizeRules (bodyModel payload)) p m hp hp0 hcr
    rw [hml] at hrs
    rw [createVideoExec_ok env payload _ _ hrs]
    refine ⟨rfl, ?_⟩
    rw [sizeStep_label_eval env _ 1 _ l hl0, storeWrite_two, storeGet_two_one,
        getField_setField_same]
  · intro hpf f l hgr hl0
    have hpf' : getField payload "input_reference_path" = none
        ∨ getField payload "input_reference_path" = some (.vstr "") := hpf
    have hrs := referenceStep_noPath_eval env payload payload
      (getSizeRules (bodyModel payload)) hpf'
    rw [referenceFromBody_refMeta_eval payload payload f (some l) hgr] at hrs
    rw [createVideoExec_ok env payload _ _ hrs]
    refine ⟨rfl, ?_⟩
    rw [sizeStep_label_eval env _ 1 _ l hl0, storeWrite_two, storeGet_two_one,
        getField_setField_same]
  · intro hpf hnl s hs hs0
    obtain ⟨o', hexec, hsize⟩ := createVideoExec_noRef env payload hpf hnl
    have hs' : getField o' "size" = some (.vstr s) := by rw [hsize, hs]
    rw [hexec]
    refine ⟨rfl, ?_⟩
    exact sizeFromBody_final_str env payload o' (bodyModel payload) s hs' hs0
  · intro hpf hnl hs
    obtain ⟨o', hexec, hsize⟩ := createVideoExec_noRef env payload hpf hnl
    have hs' : getField o' "size" = none ∨ getField o' "size" = some (.vstr "") := by
      rcases hs with h | h
      · left; rw [hsize, h]
      · right; rw [hsize, h]
    obtain ⟨r₀, rest, hrules, hfield⟩ := sizeFromBody_final_default env payload o'
      (bodyModel payload) hs'
    refine ⟨r₀, rest, hrules, ?_, ?_⟩
    · rw [hexec]
    · rw [hexec]
      exact hfield
  · intro p m hp hp0 hcr hml s hs hs0
    have hrs := referenceStep_path_eval env payload payload
      (getSizeRules (bodyModel payload)) p m hp hp0 hcr
    have hr : (some m.sizeLabel : Option (Option String)) = none
        ∨ some m.sizeLabel = some none ∨ some m.sizeLabel = some (some "") := by
      rcases hml with h | h
      · rw [h]; exact Or.inr (Or.inl rfl)
      · rw [h]; exact Or.inr (Or.inr rfl)
    have hs' : getField (removeField (setField payload "input_reference"
        (.vfile m.file)) "input_reference_path") "size" = some (.vstr s) := by
      rw [getField_removeField_ne _
            (show ("size" : String) ≠ "input_reference_path" by decide),
          getField_setField_ne payload (.vfile m.file)
            (show ("size" : String) ≠ "input_reference" by decide), hs]
    rw [createVideoExec_ok env payload _ _ hrs]
    refine ⟨rfl, ?_⟩
    rw [sizeStep_noLabel_eval env _ 1 _ (some m.sizeLabel) hr]
    exact sizeFromBody_final_str env payload _ (bodyModel payload) s hs' hs0
  · intro p m hp hp0 hcr hml hs
    have hrs := referenceStep_path_eval env payload payload
      (getSizeRules (bodyModel payload)) p m hp hp0 hcr
    have hr : (some m.sizeLabel : Option (Option String)) = none
        ∨ some m.sizeLabel = some none ∨ some m.sizeLabel = some (some "") := by
      rcases hml with h | h
      · rw [h]; exact Or.inr (Or.inl rfl)
      · rw [h]; exact Or.inr (Or.inr rfl)
    have hs' : getField (removeField (setField payload "input_reference"
        (.vfile m.file)) "input_reference_path") "size" = none
        ∨ getField (removeField (setField payload "input_reference"
            (.vfile m.file)) "input_reference_path") "size" = some (.vstr "") := by
      rcases hs with h | h
      · left
        rw [getField_removeField_ne _
              (show ("size" : String) ≠ "input_reference_path" by decide),
            getField_setField_ne payload (.vfile m.file)
              (show ("size" : String) ≠ "input_reference" by decide), h]
      · right
        rw [getField_removeField_ne _
              (show ("size" : String) ≠ "input_reference_path" by decide),
            getField_setField_ne payload (.vfile m.file)
              (show ("size" : String) ≠ "input_reference" by decide), h]
    obtain ⟨r₀, rest, hrules, hfield⟩ := sizeFromBody_final_default env payload _
      (bodyModel payload) hs'
    refine ⟨r₀, rest, hrules, ?_, ?_⟩
    · rw [createVideoExec_ok env payload _ _ hrs]
    · rw [createVideoExec_ok env payload _ _ hrs,
          sizeStep_noLabel_eval env _ 1 _ (some m.sizeLabel) hr]
      exact hfield

/-- Environment for the C3 witness. -/
def testEnvC3 : CreateEnv :=
  ⟨probeFail, resizeKeep, readOne, resolveId, fun _ => "", "1280x720"⟩

/-- Payload for the C3 witness: a truthy path to an mp4 guide file (whose
built reference carries no size label) together with an explicit size. -/
def guidePayload : Obj :=
  [("input_reference_path", .vstr "/tmp/guide.mp4"), ("size", .vstr "720 X 1280")]

/-- Witness for C3: a create request with no `size` and no reference gets the
model's first rule label, and one with a labelless mp4 path reference plus an
explicit size gets that size coerced. -/
theorem createVideo_size_precedence_witness :
    (∃ r₀ rest, getSizeRules (bodyModel [("prompt", JSVal.vstr "hi")]) = r₀ :: rest
      ∧ (createVideoExec testEnvC3 [("prompt", JSVal.vstr "hi")]).2 = .ok 1
      ∧ getField (storeGet (createVideoExec testEnvC3 [("prompt", JSVal.vstr "hi")]).1 1)
          "size" = some (.vstr r₀.label))
    ∧ (createVideoExec testEnvC3 guidePayload).2 = .ok 1
    ∧ getField (storeGet (createVideoExec testEnvC3 guidePayload).1 1) "size"
        = some (.vstr (coerceSizeToSupported "720 X 1280"
            (getSizeRules (bodyModel guidePayload)))) :=
  ⟨(createVideo_size_precedence testEnvC3 [("prompt", JSVal.vstr "hi")]).2.2.2.1
      (Or.inl rfl) rfl (Or.inl rfl),
   (createVideo_size_precedence testEnvC3 guidePayload).2.2.2.2.1 "/tmp/guide.mp4"
      ⟨[1], "video/mp4", none⟩ rfl (by decide) (by rfl) (Or.inl rfl)
      "720 X 1280" rfl (by decide)⟩
